import Mathlib

/-!
Shallow embedding of the `py-travel` itinerary engine
(`src/py_travel/trip.py`, `src/py_travel/client.py`, `src/py_travel/utils.py`,
`src/py_travel/location.py`, `src/py_travel/vars.py`).

Conventions of the embedding:
* Python `datetime` values are integer microseconds on an unbounded timeline
  (`Int`); `timedelta(seconds=t)` is `t * 1000000`; `datetime.date()` is the
  floor-division day index `dayIdx`; `datetime.max.time()` of a day is the
  last microsecond of that day (23:59:59.999999); `datetime.min.time()` is
  midnight.  Subtraction of two dates in days is subtraction of day indices.
* Fallible Python code (exceptions) is embedded in `Except PyErr`.
* `warnings.warn` emissions are collected in an ordered list of `Warn` values.
* Floats are embedded as exact rationals `ℚ` (the Python code only divides,
  multiplies and sums; every claim is settled on the exact values).
-/

namespace PyTravel

/-- Microseconds in one day (Python datetime resolution is 1 µs). -/
abbrev USDAY : Int := 86400000000

/-- `t.date()` as a day index: floor division of the µs timestamp by a day
(`Int` division is Euclidean division, which is floor division for the
positive divisor `USDAY`, matching Python `//`). -/
def dayIdx (t : Int) : Int := t / USDAY

/-- Midnight (`datetime.min.time()`) of the day containing `t`. -/
def dayStart (t : Int) : Int := USDAY * dayIdx t

/-- `datetime.combine(t, datetime.max.time())`: the last microsecond
(23:59:59.999999) of the day containing `t`. -/
def dayLast (t : Int) : Int := dayStart t + (USDAY - 1)

/-- Midnight of the day after the day containing `t`
(`datetime.combine(t + timedelta(days=1), datetime.min.time())`). -/
def nextMid (t : Int) : Int := dayStart t + USDAY

theorem dayStart_le (t : Int) : dayStart t ≤ t := by
  simp only [dayStart, dayIdx, USDAY]
  omega

theorem lt_nextMid (t : Int) : t < nextMid t := by
  simp only [nextMid, dayStart, dayIdx, USDAY]
  omega

theorem dayIdx_of_between {t u : Int} (h1 : dayStart t ≤ u) (h2 : u ≤ dayLast t) :
    dayIdx u = dayIdx t := by
  simp only [dayStart, dayLast, dayIdx, USDAY] at *
  omega

theorem dayIdx_nextMid (t : Int) : dayIdx (nextMid t) = dayIdx t + 1 := by
  simp only [nextMid, dayStart, dayIdx, USDAY]
  omega

theorem dayIdx_mono {t u : Int} (h : t ≤ u) : dayIdx t ≤ dayIdx u := by
  simp only [dayIdx, USDAY]
  omega

/-! ### Python exceptions raised by the embedded code -/

/-- Exceptions that the embedded code can raise.
`attributeError`, `keyError`, `indexError`, `zeroDivisionError`,
`notImplementedError` are the built-in Python exceptions; the rest are the
library's own exception classes (`src/py_travel/exceptions.py` and the
client-level errors referenced from `src/py_travel/client.py`). -/
inductive PyErr where
  | clientNotInitialized : PyErr
  | invalidResponse (field : String) : PyErr
  | locationNotFound : PyErr
  | apiError (status message : String) : PyErr
  | gmapsApiError (status message : String) : PyErr
  | attributeError : PyErr
  | keyError : PyErr
  | indexError : PyErr
  | zeroDivisionError : PyErr
  | notImplementedError : PyErr
deriving DecidableEq, Repr

/-! ### API response dictionaries

A Google Maps directions response is consumed by the code only through the
paths `legs[0].distance.value`, `legs[0].duration.value` and
`legs[0].steps[i].{distance,duration}.value`; the embedding keeps exactly
those fields, each optional to model an absent key. -/

/-- One entry of `legs[0].steps`: `step.get("distance", {}).get("value", d)`
and the same for duration. -/
structure StepJson where
  distanceValue : Option Int
  durationValue : Option Int
deriving DecidableEq, Repr

/-- One entry of the response's `legs` list. -/
structure LegJson where
  distanceValue : Option Int
  durationValue : Option Int
  steps : Option (List StepJson)
deriving DecidableEq, Repr

/-- A directions API response dictionary (as returned by
`client.directions(...)[0]`). -/
structure RespJson where
  legs : Option (List LegJson)
deriving DecidableEq, Repr

/-- The empty dictionary `{}` used as default by `json.get("legs", [{}])[0]`:
every lookup on it misses. -/
def emptyLegJson : LegJson := ⟨none, none, none⟩

/-- `json.get("legs", [{}])[0]`: an absent `legs` key falls back to `[{}]`
whose first element is `{}`; a present but empty list raises `IndexError`;
otherwise the first leg. -/
def legs0 (json : RespJson) : Except PyErr LegJson :=
  match json.legs with
  | none => .ok emptyLegJson
  | some [] => .error .indexError
  | some (l :: _) => .ok l

/-! ### `src/py_travel/utils.py` -/

/-- `METERS_IN_MILE = 1609.344` (`src/py_travel/vars.py`), as an exact
rational. -/
def METERS_IN_MILE : ℚ := 1609344 / 1000

/-- `utils.meters_to_miles`. -/
def meters_to_miles (meters : ℚ) : ℚ := meters / METERS_IN_MILE

/-- `utils.get_distance(json, step=False)`: reads
`json.get("legs", [{}])[0].get("distance", {}).get("value", -1)` and raises
`InvalidResponseError("legs[0].distance.value")` when the result is
negative. -/
def get_distance (json : RespJson) : Except PyErr Int := do
  let json_subdict ← legs0 json
  let meters := json_subdict.distanceValue.getD (-1)
  if meters < 0 then .error (.invalidResponse "legs[0].distance.value")
  else pure meters

/-- `utils.get_distance(json, step=True)`: the json is the step dictionary
itself and the error path is `"distance.value"`. -/
def get_distance_step (json : StepJson) : Except PyErr Int := do
  let meters := json.distanceValue.getD (-1)
  if meters < 0 then .error (.invalidResponse "distance.value")
  else pure meters

/-- `utils.get_duration(json, step=False)`. -/
def get_duration (json : RespJson) : Except PyErr Int := do
  let json_subdict ← legs0 json
  let seconds := json_subdict.durationValue.getD (-1)
  if seconds < 0 then .error (.invalidResponse "legs[0].duration.value")
  else pure seconds

/-- `utils.get_duration(json, step=True)`. -/
def get_duration_step (json : StepJson) : Except PyErr Int := do
  let seconds := json.durationValue.getD (-1)
  if seconds < 0 then .error (.invalidResponse "duration.value")
  else pure seconds

/-- `utils.get_steps`: `json.get("legs", [{}])[0].get("steps", [])`, raising
`InvalidResponseError("legs[0].steps")` when the list is missing or empty,
then `(get_distance(step, True), get_duration(step, True))` per step. -/
def get_steps (json : RespJson) : Except PyErr (List (Int × Int)) := do
  let sub ← legs0 json
  let raw_steps := sub.steps.getD []
  if raw_steps = [] then .error (.invalidResponse "legs[0].steps")
  else raw_steps.mapM (fun s => do pure (← get_distance_step s, ← get_duration_step s))

/-! ### `src/py_travel/location.py` and `src/py_travel/vars.py`

The itinerary code treats a `Location` as an opaque endpoint: it only ever
forwards `location.get_data()` (coordinates or address) to the provider.
The embedding keeps exactly that payload. -/

/-- The payload of a `Location`: a coordinates pair or an address string.
Coordinates are kept as a pair of rationals (Python floats). -/
inductive LocData where
  | coords (lat lng : ℚ) : LocData
  | address (a : String) : LocData
deriving DecidableEq, Repr

/-- A `Location` object; `get_data` yields the payload sent to the provider. -/
structure Location where
  data : LocData
deriving DecidableEq, Repr

/-- The inputs accepted wherever the code calls `input_to_location`:
a `(lat, lng)` tuple, an address string, or an existing `Location`. -/
inductive LocInput where
  | tuple (lat lng : ℚ) : LocInput
  | str (a : String) : LocInput
  | loc (l : Location) : LocInput
deriving DecidableEq, Repr

/-- `location.input_to_location`: a `Location` passes through, a string
becomes an address `Location`, a tuple a coordinates `Location`. -/
def input_to_location : LocInput → Location
  | .loc l => l
  | .str a => ⟨.address a⟩
  | .tuple lat lng => ⟨.coords lat lng⟩

/-- `vars.Stop`: named tuple of a location and the departure date from it
(µs timestamp). -/
structure Stop where
  location : Location
  departure_date : Int
deriving DecidableEq, Repr

/-- `self.__stops.sort(key=lambda stop: stop.departure_date)` — Python
`list.sort` is a stable sort by the key.  The embedding computes the unique
stable ascending ordering by `departure_date` as a stable insertion sort:
an element is inserted after every earlier element with a strictly smaller
key and before the first with a greater-or-equal key, so elements with equal
keys keep their original order. -/
def insertStop (x : Stop) : List Stop → List Stop
  | [] => [x]
  | y :: ys =>
    if y.departure_date < x.departure_date then y :: insertStop x ys
    else x :: y :: ys

/-- Stable sort of a stop list by `departure_date` (see `insertStop`). -/
def sortStops : List Stop → List Stop
  | [] => []
  | x :: xs => insertStop x (sortStops xs)

/-- The sortedness invariant claimed for the stored stop list. -/
def stopsSorted (l : List Stop) : Prop :=
  l.Pairwise (fun a b => a.departure_date ≤ b.departure_date)

/-! ### Trip configuration (`TripConfig`, `src/py_travel/trip.py`) -/

/-- `TripConfig`: a total-`False` `TypedDict`; each recognized key may be
absent.  The embedded code reads only `mode` and `units`
(`config.get("mode", "not_configured")`, `config.get("units", "metric")`);
the remaining keys are forwarded verbatim to the provider, so they are kept
as opaque optional strings. -/
structure TripConfig where
  mode : Option String := none
  avoid : Option String := none
  units : Option String := none
  transit_mode : Option String := none
  transit_routing_preference : Option String := none
  traffic_model : Option String := none
deriving DecidableEq, Repr

/-- Python truthiness of a `TripConfig` dict: an empty dict is falsy.
Used by `if trip_config:` in `calculate_trip`. -/
def TripConfig.truthy (c : TripConfig) : Bool :=
  c ≠ ({} : TripConfig)

/-- `self.__config.get("mode", "not_configured")`. -/
def TripConfig.modeOrDefault (c : TripConfig) : String :=
  c.mode.getD "not_configured"

/-- `self.__config.get("units", "metric")`. -/
def TripConfig.unitsOrDefault (c : TripConfig) : String :=
  c.units.getD "metric"

/-! ### The api_response cache -/

/-- An insertion-ordered string-keyed dictionary of responses, modelling the
`self.__api_response` dict used for trips with stops (`.values()` iterates in
insertion order). -/
abbrev RespDict := List (String × RespJson)

/-- `d[k] = v` on an insertion-ordered dict: an existing key keeps its
position and gets the new value, a new key is appended. -/
def dictSet (d : RespDict) (k : String) (v : RespJson) : RespDict :=
  if (d.map Prod.fst).contains k then
    d.map (fun kv => if kv.1 = k then (k, v) else kv)
  else d ++ [(k, v)]

/-- `.values()` of the cache dict. -/
def dictValues (d : RespDict) : List RespJson := d.map Prod.snd

/-- `self.__api_response`: initialized to `{}` (an empty `dict`), it holds a
dictionary of per-stage responses after a computation with stops, or a bare
response dictionary after a computation without stops.  (Python stores both
in the same field; the embedding separates the two shapes.  Item assignment
on a bare response — possible only by computing without stops, then adding
stops and computing again — is not exercised by any claim and is embedded as
a no-op on the `.single` shape.) -/
inductive ApiCache where
  | dict (d : RespDict) : ApiCache
  | single (r : RespJson) : ApiCache
deriving DecidableEq, Repr

/-- `self.__api_response[key] = value` (see `ApiCache` for the `.single`
caveat). -/
def ApiCache.setItem (c : ApiCache) (k : String) (v : RespJson) : ApiCache :=
  match c with
  | .dict d => .dict (dictSet d k v)
  | .single r => .single r

/-- Reading the cache where the code expects a bare no-stop response
(e.g. `get_distance(self.__api_response)`): a dict of stage responses (or the
initial `{}`) has no `"legs"` key, so every `.get("legs", ...)` on it misses.
The stage keys are only ever `"departure"`, `"stage_i"` and `"arrival"`,
never `"legs"`. -/
def ApiCache.asResp : ApiCache → RespJson
  | .single r => r
  | .dict _ => ⟨none⟩

/-! ### Trip state (`Trip.__init__`, `src/py_travel/trip.py`) -/

/-- The mutable state of a `Trip` object: the private fields set by
`Trip.__init__`.  Dates are optional µs timestamps (`None` when not given). -/
structure TripState where
  origin : Location
  destination : Location
  stops : List Stop
  departure_date : Option Int
  arrival_date : Option Int
  config : TripConfig
  api_response : ApiCache
  updated : Bool
deriving DecidableEq, Repr

/-- `Trip.__init__`: normalizes origin/destination, builds the stop list and
sorts it by departure date, stores the dates and config (an absent/`None`
config becomes `{}`), and starts with an empty cache and `updated = True`. -/
def Trip.init (origin destination : LocInput)
    (stops : Option (List (LocInput × Int)))
    (departure_date arrival_date : Option Int)
    (config : Option TripConfig) : TripState :=
  { origin := input_to_location origin
    destination := input_to_location destination
    stops := sortStops ((stops.getD []).map
      (fun ld => { location := input_to_location ld.1, departure_date := ld.2 }))
    departure_date := departure_date
    arrival_date := arrival_date
    config := config.getD {}
    api_response := .dict []
    updated := true }

/-! ### The six property setters (each ends with `self.__updated = True`) -/

/-- `Trip.origin` setter. -/
def Trip.setOrigin (s : TripState) (new_origin : LocInput) : TripState :=
  { s with origin := input_to_location new_origin, updated := true }

/-- `Trip.destination` setter. -/
def Trip.setDestination (s : TripState) (new_destination : LocInput) : TripState :=
  { s with destination := input_to_location new_destination, updated := true }

/-- `Trip.stops` setter: rebuilds the stop list, sorts it by departure date. -/
def Trip.setStops (s : TripState) (stops : List (LocInput × Int)) : TripState :=
  { s with
    stops := sortStops (stops.map
      (fun ld => { location := input_to_location ld.1, departure_date := ld.2 }))
    updated := true }

/-- `Trip.departure_date` setter. -/
def Trip.setDepartureDate (s : TripState) (d : Int) : TripState :=
  { s with departure_date := some d, updated := true }

/-- `Trip.arrival_date` setter. -/
def Trip.setArrivalDate (s : TripState) (d : Int) : TripState :=
  { s with arrival_date := some d, updated := true }

/-- `Trip.config` setter. -/
def Trip.setConfig (s : TripState) (new_config : TripConfig) : TripState :=
  { s with config := new_config, updated := true }

/-- `Trip.set_response` (test helper): stores a response and clears the
dirty flag. -/
def Trip.set_response (s : TripState) (response : ApiCache) : TripState :=
  { s with api_response := response, updated := false }

/-! ### Warnings (`TripWarning`, `src/py_travel/exceptions.py`)

`warnings.warn` is a side channel; the embedding collects the emitted
warnings in order. -/

/-- An emitted warning: `TripWarning.ignore_field(field, message)` or
`TripWarning.update_date(date_name, message)`. -/
inductive Warn where
  | ignoreField (field message : String) : Warn
  | updateDate (dateName message : String) : Warn
deriving DecidableEq, Repr

/-! ### The provider (`src/py_travel/client.py`) -/

/-- The time-anchor keyword argument passed to the directions endpoint:
`departure_time=...` or `arrival_time=...`. -/
inductive DateArg where
  | departureTime (t : Int) : DateArg
  | arrivalTime (t : Int) : DateArg
deriving DecidableEq, Repr

/-- One call to the directions endpoint: the arguments the trip code passes
(`origin`, `destination`, the time anchor, and the forwarded
`**self.__config`). -/
structure CallRecord where
  origin : LocData
  destination : LocData
  dateArg : DateArg
  config : TripConfig
deriving DecidableEq, Repr

/-- A failure of the underlying `googlemaps` client:
`googlemaps.exceptions.ApiError(status, message)`. -/
inductive GmErr where
  | apiError (status message : String) : GmErr
deriving DecidableEq, Repr

/-- The external googlemaps client as an oracle: for each call it either
returns the first element of the directions response list
(the `[0]` the code takes; an empty response list is not exercised by any
claim) or raises `googlemaps.exceptions.ApiError`. -/
abbrev Oracle := CallRecord → Except GmErr RespJson

/-- `Client.directions` (`src/py_travel/client.py`): wraps the googlemaps
call, translating an `ApiError` with status `NOT_FOUND` into
`LocationNotFoundError` and any other status into the library's `ApiError`. -/
def Client.directions (oracle : Oracle) (rec : CallRecord) : Except PyErr RespJson :=
  match oracle rec with
  | .ok response => .ok response
  | .error (.apiError status message) =>
    if status = "NOT_FOUND" then .error .locationNotFound
    else .error (.apiError status message)

/-- `self.client.directions(...)` as called directly (without the
`Client.directions` wrapper) on the no-stop path of `calculate_trip`:
googlemaps errors propagate untranslated. -/
def rawDirections (oracle : Oracle) (rec : CallRecord) : Except PyErr RespJson :=
  match oracle rec with
  | .ok response => .ok response
  | .error (.apiError status message) => .error (.gmapsApiError status message)

/-- The class-level provider binding (`Client.client`).  The class body only
*annotates* the attribute (`client: googlemaps.Client`) without assigning
it, so before `set_client` is called the attribute does not exist at all and
reading `self.client` raises `AttributeError`; after `set_client` it holds a
`googlemaps.Client` instance (always truthy). -/
abbrev ClientSlot := Option Unit

/-- `self.client` attribute read: missing attribute raises
`AttributeError`. -/
def readClient (c : ClientSlot) : Except PyErr Unit :=
  match c with
  | none => .error .attributeError
  | some u => .ok u

/-- Python truthiness of a bound `googlemaps.Client` instance: class
instances without `__bool__`/`__len__` are always truthy, so
`not self.client` is always false once the attribute exists. -/
def clientFalsy (_ : Unit) : Bool := false

/-! ### Derived-metric accessors (`src/py_travel/trip.py`)

Every accessor starts with `if self.__updated: self.calculate_trip()`.
The `*Fresh` functions below embed the body that follows that staleness
guard; `Trip.calculate_trip` (further down) re-runs the computation when the
flag is set, and the guarded accessors are assembled from the two parts. -/

/-- `self.__api_response.values()` where the code iterates stage responses:
on the initial `{}` or a stages dict these are the stage responses; on a
bare no-stop response the values are not response dictionaries and the first
`.get` on one raises `AttributeError` (mixed state, not exercised by any
claim). -/
def ApiCache.stageValues : ApiCache → Except PyErr (List RespJson)
  | .dict d => .ok (dictValues d)
  | .single _ => .error .attributeError

/-- `Trip.distance` body after the staleness guard: total meters (summed per
stage when there are stops, read from the single response otherwise), then
`meters / 1000` for metric units (the default) or `meters_to_miles` for any
other configured unit. -/
def Trip.distanceFresh (s : TripState) : Except PyErr ℚ := do
  let meters : Int ←
    if s.stops ≠ [] then do
      let stages ← s.api_response.stageValues
      let vals ← stages.mapM get_distance
      pure vals.sum
    else get_distance s.api_response.asResp
  if s.config.unitsOrDefault = "metric" then pure ((meters : ℚ) / 1000)
  else pure (meters_to_miles (meters : ℚ))

/-- `Trip.seconds` body after the staleness guard.  Note the source: with
stops it computes `sum(get_distance(stage) for stage in ...)` — it sums the
stage *distances* — while without stops it returns
`get_duration(self.__api_response)`. -/
def Trip.secondsFresh (s : TripState) : Except PyErr Int := do
  if s.stops ≠ [] then do
    let stages ← s.api_response.stageValues
    let vals ← stages.mapM get_distance
    pure vals.sum
  else get_duration s.api_response.asResp

/-- `Trip.days` body after the staleness guard:
`(arrival_date.date() - departure_date.date()).days + 1`; a missing date is
`None` and `.date()` on it raises `AttributeError`. -/
def Trip.daysFresh (s : TripState) : Except PyErr Int :=
  match s.arrival_date, s.departure_date with
  | some arr, some dep => .ok (dayIdx arr - dayIdx dep + 1)
  | _, _ => .error .attributeError

/-- Python falsiness of the value read by
`.get("legs", [{}])[0].get("distance", {}).get("value", None)`:
`None` and `0` are falsy, any other integer truthy. -/
def falsyOptInt : Option Int → Bool
  | none => true
  | some v => v = 0

/-- `stage.get("legs", [{}])[0].get("distance", {}).get("value", None)`. -/
def stageDistanceValue (stage : RespJson) : Except PyErr (Option Int) := do
  let leg ← legs0 stage
  pure leg.distanceValue

/-- `stage.get("legs", [{}])[0].get("duration", {}).get("value", None)`. -/
def stageDurationValue (stage : RespJson) : Except PyErr (Option Int) := do
  let leg ← legs0 stage
  pure leg.durationValue

/-- `Trip.stages_distances` body after the staleness guard: per-stage
`legs[0].distance.value`, raising `InvalidResponseError` when the value is
absent *or falsy* (`if not stage_meters`), then unit conversion per entry. -/
def Trip.stagesDistancesFresh (s : TripState) : Except PyErr (List ℚ) := do
  let distances : List Int ←
    if s.stops ≠ [] then do
      let stages ← s.api_response.stageValues
      stages.mapM (fun stage => do
        let stage_meters ← stageDistanceValue stage
        if falsyOptInt stage_meters then
          .error (.invalidResponse "legs[0].distance.value")
        else pure (stage_meters.getD 0))
    else do
      let meters ← stageDistanceValue s.api_response.asResp
      if falsyOptInt meters then .error (.invalidResponse "legs[0].distance.value")
      else pure [meters.getD 0]
  pure (distances.map (fun distance =>
    if s.config.unitsOrDefault = "metric" then (distance : ℚ) / 1000
    else meters_to_miles (distance : ℚ)))

/-- `Trip.stages_seconds` body after the staleness guard: per-stage
`legs[0].duration.value`, raising `InvalidResponseError` when the value is
absent *or falsy* (`if not stage_seconds`). -/
def Trip.stagesSecondsFresh (s : TripState) : Except PyErr (List Int) := do
  if s.stops ≠ [] then do
    let stages ← s.api_response.stageValues
    stages.mapM (fun stage => do
      let stage_seconds ← stageDurationValue stage
      if falsyOptInt stage_seconds then
        .error (.invalidResponse "legs[0].duration.value")
      else pure (stage_seconds.getD 0))
  else do
    let seconds_trip ← stageDurationValue s.api_response.asResp
    if falsyOptInt seconds_trip then .error (.invalidResponse "legs[0].duration.value")
    else pure [seconds_trip.getD 0]

/-! ### `Trip.update_dates` -/

/-- Python list indexing `l[i]` (raises `IndexError` out of range). -/
def listIdx {α : Type} (l : List α) (i : Nat) : Except PyErr α :=
  match l[i]? with
  | some x => .ok x
  | none => .error .indexError

/-- Python `l[-1]` (raises `IndexError` on an empty list). -/
def listNeg1 {α : Type} (l : List α) : Except PyErr α :=
  match l.getLast? with
  | some x => .ok x
  | none => .error .indexError

/-- The stop-correction loop of `update_dates`:
for each stop (in order) the expected arrival is
`current_date + timedelta(seconds=travel_times[index])`; a stop whose stored
departure is earlier is replaced by one departing at that arrival and a
date-updated warning is emitted; then `current_date = stop.departure_date`
advances to the *loop variable's* (pre-correction) departure date.
Returns the rebuilt stop list, the final `current_date` and the warnings. -/
def stopsDatesLoop (travel_times : List Int) (index : Nat) (current_date : Int) :
    List Stop → Except PyErr (List Stop × Int × List Warn)
  | [] => .ok ([], current_date, [])
  | stop :: rest => do
    let t ← listIdx travel_times index
    let stop_arrival := current_date + t * 1000000
    let (newStop, w) :=
      if stop.departure_date < stop_arrival then
        (({ location := stop.location, departure_date := stop_arrival } : Stop),
         [Warn.updateDate "stop" "Calculated arrival before departure date"])
      else (stop, ([] : List Warn))
    let (rest', final, ws) ← stopsDatesLoop travel_times (index + 1) stop.departure_date rest
    pure (newStop :: rest', final, w ++ ws)

/-- The "Check departure date" block of `update_dates`: a missing departure
is `now` when the arrival is also missing, otherwise it is back-computed
from the first dated reference point (`arrival_date` without stops,
`stops[0].departure_date` with stops) minus the first leg's travel time;
each fix emits a date-updated warning.  Returns the (possibly filled-in)
departure and the warnings. -/
def updDeparture (now : Int) (s : TripState) (travel_times : List Int) :
    Except PyErr (Int × List Warn) :=
  match s.departure_date, s.arrival_date with
  | none, none =>
    pure (now, [Warn.updateDate "departure" "No departure date provided"])
  | none, some arr =>
    if s.stops = [] then do
      let t0 ← listIdx travel_times 0
      pure (arr - t0 * 1000000,
        [Warn.updateDate "departure" "No departure date provided"])
    else do
      let st0 ← listIdx s.stops 0
      let t0 ← listIdx travel_times 0
      pure (st0.departure_date - t0 * 1000000,
        [Warn.updateDate "departure" "No departure date provided"])
  | some dep, _ => pure (dep, ([] : List Warn))

/-- The "Check stop dates" block of `update_dates` (see `stopsDatesLoop`). -/
def updStops (dep : Int) (s : TripState) (travel_times : List Int) :
    Except PyErr (List Stop × List Warn) :=
  if s.stops ≠ [] then do
    let lcw ← stopsDatesLoop travel_times 0 dep s.stops
    pure (lcw.1, lcw.2.2)
  else pure (s.stops, ([] : List Warn))

/-- The "Check arrival date" block of `update_dates`: the new arrival is
departure plus the single travel time without stops, or the (possibly
corrected) last stop's departure plus the last travel time with stops; a
missing or differing stored arrival is overwritten with a date-updated
warning. -/
def updArrival (dep : Int) (stops' : List Stop) (s : TripState)
    (travel_times : List Int) : Except PyErr (Int × List Warn) := do
  let new_arrival ←
    if s.stops = [] then do
      let t0 ← listIdx travel_times 0
      pure (dep + t0 * 1000000)
    else do
      let last ← listNeg1 stops'
      let tl ← listNeg1 travel_times
      pure (last.departure_date + tl * 1000000)
  match s.arrival_date with
  | none =>
    pure (new_arrival, [Warn.updateDate "arrival" "No arrival date provided"])
  | some a =>
    if a ≠ new_arrival then
      pure (new_arrival, [Warn.updateDate "arrival" "Calculated arrival does not match"])
    else pure (a, ([] : List Warn))

/-- `Trip.update_dates`, embedded on the fresh-cache path (`updated = False`),
which is how `calculate_trip` invokes it; the leading staleness guard
(`if self.__updated: self.calculate_trip()`) is then a no-op.  `now` is
`datetime.now()`.  The three blocks of the source method are
`updDeparture`, `updStops` and `updArrival`.  Returns the state with
reconciled dates and the warnings emitted, or the exception raised by
`stages_seconds`/indexing.  (On the never-exercised paths where indexing
raises after some date was already written, Python would keep the partial
writes; the embedding returns the error with no claim observing the
intermediate state.) -/
def Trip.update_dates (now : Int) (s : TripState) : Except PyErr (TripState × List Warn) := do
  let travel_times ← Trip.stagesSecondsFresh s
  let dw ← updDeparture now s travel_times
  let sw ← updStops dw.1 s travel_times
  let aw ← updArrival dw.1 sw.1 s travel_times
  pure ({ s with departure_date := some dw.1, arrival_date := some aw.1, stops := sw.1 },
    dw.2 ++ sw.2 ++ aw.2)

/-! ### `Trip.calculate_trip` -/

/-- The outcome of a `calculate_trip` invocation: the state of the object
afterwards, the returned cache or the raised exception, the provider calls
issued (in order), and the warnings emitted. -/
structure CalcOut where
  state : TripState
  result : Except PyErr ApiCache
  calls : List CallRecord
  warns : List Warn
deriving Repr

/-- The per-stop call loop of `calculate_trip`: one `self.directions` call
per stop, keyed `"departure"` for index 0 and `"stage_i"` for i > 0, each
anchored at the departure time from the previous point, committed into the
cache one by one; a failing call stops the loop with the error. -/
def stopsCallLoop (oracle : Oracle) (config : TripConfig) (cache : ApiCache)
    (current_location : LocData) (current_date : Int) (index : Nat) :
    List Stop → ApiCache × LocData × Int × List CallRecord × Option PyErr
  | [] => (cache, current_location, current_date, [], none)
  | stop :: rest =>
    let key := if index > 0 then "stage_" ++ toString index else "departure"
    let call : CallRecord :=
      { origin := current_location, destination := stop.location.data
        dateArg := .departureTime current_date, config := config }
    match Client.directions oracle call with
    | .error e => (cache, current_location, current_date, [call], some e)
    | .ok response =>
      let cache' := cache.setItem key response
      let (c, loc, dt, calls, err) :=
        stopsCallLoop oracle config cache' stop.location.data stop.departure_date
          (index + 1) rest
      (c, loc, dt, call :: calls, err)

/-- The body of `Trip.calculate_trip` after the `if trip_config:` config
step (see `Trip.calculate_trip` for the wrapper): the staleness guard, the
client check, the advisory warnings, the provider calls and the final
reconciliation.  `oracle` is the external googlemaps client, `now` is
`datetime.now()`, `client` the class-level binding (see `ClientSlot`). -/
def Trip.calcCore (oracle : Oracle) (now : Int) (client : ClientSlot)
    (s : TripState) : CalcOut :=
  if s.updated = false then
    { state := s, result := .ok s.api_response, calls := [], warns := [] }
  else
    match readClient client with
    | .error e => { state := s, result := .error e, calls := [], warns := [] }
    | .ok u =>
      if clientFalsy u then
        { state := s, result := .error .clientNotInitialized, calls := [], warns := [] }
      else
        let warns₀ : List Warn :=
          if s.arrival_date.isSome ∧ s.stops ≠ [] then
            [.ignoreField "arrival_date" "Ignored for trips with stops"]
          else if s.arrival_date.isSome ∧ s.config.modeOrDefault ≠ "transit" then
            [.ignoreField "arrival_date" "Only used for transit mode"]
          else []
        if s.stops ≠ [] then
          let current_location := s.origin.data
          let current_date := s.departure_date.getD now
          let (cache₁, loc₁, date₁, calls₁, err) :=
            stopsCallLoop oracle s.config s.api_response current_location
              current_date 0 s.stops
          match err with
          | some e =>
            { state := { s with api_response := cache₁ }, result := .error e
              calls := calls₁, warns := warns₀ }
          | none =>
            let call : CallRecord :=
              { origin := loc₁, destination := s.destination.data
                dateArg := .departureTime date₁, config := s.config }
            match Client.directions oracle call with
            | .error e =>
              { state := { s with api_response := cache₁ }, result := .error e
                calls := calls₁ ++ [call], warns := warns₀ }
            | .ok response =>
              let s₁ := { s with api_response := cache₁.setItem "arrival" response
                                 updated := false }
              match Trip.update_dates now s₁ with
              | .error e =>
                { state := s₁, result := .error e, calls := calls₁ ++ [call]
                  warns := warns₀ }
              | .ok (s₂, ws) =>
                { state := s₂, result := .ok s₂.api_response
                  calls := calls₁ ++ [call], warns := warns₀ ++ ws }
        else
          let date_argument : DateArg :=
            match s.departure_date with
            | some d => .departureTime d
            | none =>
              match s.arrival_date with
              | some a =>
                if s.config.modeOrDefault = "transit" then .arrivalTime a
                else .departureTime now
              | none => .departureTime now
          let call : CallRecord :=
            { origin := s.origin.data, destination := s.destination.data
              dateArg := date_argument, config := s.config }
          match rawDirections oracle call with
          | .error e => { state := s, result := .error e, calls := [call], warns := warns₀ }
          | .ok response =>
            let s₁ := { s with api_response := .single response, updated := false }
            match Trip.update_dates now s₁ with
            | .error e =>
              { state := s₁, result := .error e, calls := [call], warns := warns₀ }
            | .ok (s₂, ws) =>
              { state := s₂, result := .ok s₂.api_response, calls := [call]
                warns := warns₀ ++ ws }

/-- The `if trip_config: self.config = trip_config` step at the top of
`calculate_trip`: a passed, non-empty (truthy) config goes through the
config setter (which also sets the dirty flag). -/
def configStep (trip_config : Option TripConfig) (s₀ : TripState) : TripState :=
  match trip_config with
  | some tc => if tc.truthy then Trip.setConfig s₀ tc else s₀
  | none => s₀

/-- `Trip.calculate_trip(trip_config)`: the config step, then the body
`Trip.calcCore`. -/
def Trip.calculate_trip (oracle : Oracle) (now : Int) (client : ClientSlot)
    (trip_config : Option TripConfig) (s₀ : TripState) : CalcOut :=
  Trip.calcCore oracle now client (configStep trip_config s₀)

theorem configStep_stops (tc : Option TripConfig) (s₀ : TripState) :
    (configStep tc s₀).stops = s₀.stops := by
  rcases tc with _ | c
  · rfl
  · unfold configStep
    by_cases hc : c.truthy <;> simp [hc, Trip.setConfig]

theorem configStep_api_response (tc : Option TripConfig) (s₀ : TripState) :
    (configStep tc s₀).api_response = s₀.api_response := by
  rcases tc with _ | c
  · rfl
  · unfold configStep
    by_cases hc : c.truthy <;> simp [hc, Trip.setConfig]

/-! ### `Trip.travel_calendar`

The calendar dict maps the dates `departure_date.date() + i` for
`i < self.days` to accumulated meters; the embedding stores the buckets as a
list indexed by `i` (the dict's iteration order is its chronological
insertion order).  `calendar[d] += x` on a date outside the prepared range
raises `KeyError`. -/

/-- `calendar[current_date.date()] += x`: bucket index is the day index of
`t` minus the departure day; out of range raises `KeyError`. -/
def calAdd (cal : List ℚ) (depDay : Int) (t : Int) (x : ℚ) : Except PyErr (List ℚ) :=
  let i := dayIdx t - depDay
  if 0 ≤ i ∧ i.toNat < cal.length then .ok (cal.set i.toNat (cal.getD i.toNat 0 + x))
  else .error .keyError

/-- The inner `while current_date < new_date` loop of `travel_calendar` for
one step travelling at `meters_second`: a chunk that ends within the current
day (`new_date <= max_day`) is credited to the current day's bucket in full
and finishes the step; otherwise the remainder of the day up to
23:59:59.999999 (`max_day`) is credited, `current_date` jumps to the next
midnight and `max_day` to that day's last microsecond.
`(b - a).total_seconds()` is the exact µs difference over 10⁶. -/
def calWhile (depDay : Int) (meters_second : ℚ) (cal : List ℚ)
    (current_date max_day new_date : Int) : Except PyErr (List ℚ × Int × Int) :=
  if current_date < new_date then
    if new_date ≤ max_day then do
      let cal' ← calAdd cal depDay current_date
        (((new_date - current_date : Int) : ℚ) / 1000000 * meters_second)
      .ok (cal', new_date, max_day)
    else do
      let cal' ← calAdd cal depDay current_date
        (((max_day - current_date : Int) : ℚ) / 1000000 * meters_second)
      calWhile depDay meters_second cal' (nextMid current_date)
        (dayLast (nextMid current_date)) new_date
  else .ok (cal, current_date, max_day)
termination_by (new_date - current_date).toNat
decreasing_by
  have h := lt_nextMid current_date
  simp only [nextMid, dayStart, dayIdx, USDAY] at *
  omega

/-- The `for step in steps` loop of `travel_calendar`:
`meters_second = step[0] / step[1]` (raising `ZeroDivisionError` on a
zero-duration step), `new_date = current_date + timedelta(seconds=step[1])`,
then the inner while loop. -/
def calStepsLoop (depDay : Int) (cal : List ℚ) (current_date max_day : Int) :
    List (Int × Int) → Except PyErr (List ℚ × Int × Int)
  | [] => .ok (cal, current_date, max_day)
  | step :: rest => do
    if step.2 = 0 then .error .zeroDivisionError
    else do
      let meters_second : ℚ := (step.1 : ℚ) / (step.2 : ℚ)
      let new_date := current_date + step.2 * 1000000
      let (cal', cur', max') ← calWhile depDay meters_second cal current_date max_day new_date
      calStepsLoop depDay cal' cur' max' rest

/-- `Trip.travel_calendar` body after the staleness guard: builds the
day-keyed calendar of zeros for `self.days` days, rejects trips with stops
(`NotImplementedError`), runs the apportionment loop over
`get_steps(self.__api_response)`, and returns the (day, converted distance)
pairs in chronological order. -/
def Trip.travelCalendarFresh (s : TripState) : Except PyErr (List (Int × ℚ)) := do
  let days ← Trip.daysFresh s
  match s.departure_date with
  | none => .error .attributeError
  | some dep => do
    let cal₀ := List.replicate days.toNat (0 : ℚ)
    if s.stops ≠ [] then .error .notImplementedError
    else do
      let steps ← get_steps s.api_response.asResp
      let (cal, _, _) ← calStepsLoop (dayIdx dep) cal₀ dep (dayLast dep) steps
      pure ((List.range days.toNat).map (fun (i : Nat) =>
        (dayIdx dep + (i : Int),
         if s.config.unitsOrDefault = "metric" then cal.getD i 0 / 1000
         else meters_to_miles (cal.getD i 0))))

/-! ### The guarded accessors

Each public accessor first runs `if self.__updated: self.calculate_trip()`
(with no `trip_config`), then the fresh body on the possibly-updated state;
an exception from `calculate_trip` propagates.  Each returns the state of
the object afterwards together with the value or exception. -/

/-- Assemble a guarded accessor from its fresh body. -/
def guarded {α : Type} (body : TripState → Except PyErr α) (oracle : Oracle)
    (now : Int) (client : ClientSlot) (s : TripState) : TripState × Except PyErr α :=
  if s.updated then
    let c := Trip.calculate_trip oracle now client none s
    match c.result with
    | .error e => (c.state, .error e)
    | .ok _ => (c.state, body c.state)
  else (s, body s)

/-- `Trip.distance` (guarded). -/
def Trip.distance : Oracle → Int → ClientSlot → TripState → TripState × Except PyErr ℚ :=
  guarded Trip.distanceFresh

/-- `Trip.seconds` (guarded). -/
def Trip.seconds : Oracle → Int → ClientSlot → TripState → TripState × Except PyErr Int :=
  guarded Trip.secondsFresh

/-- `Trip.days` (guarded). -/
def Trip.days : Oracle → Int → ClientSlot → TripState → TripState × Except PyErr Int :=
  guarded Trip.daysFresh

/-- `Trip.stages_distances` (guarded). -/
def Trip.stages_distances :
    Oracle → Int → ClientSlot → TripState → TripState × Except PyErr (List ℚ) :=
  guarded Trip.stagesDistancesFresh

/-- `Trip.stages_seconds` (guarded). -/
def Trip.stages_seconds :
    Oracle → Int → ClientSlot → TripState → TripState × Except PyErr (List Int) :=
  guarded Trip.stagesSecondsFresh

/-- `Trip.travel_calendar` (guarded). -/
def Trip.travel_calendar :
    Oracle → Int → ClientSlot → TripState → TripState × Except PyErr (List (Int × ℚ)) :=
  guarded Trip.travelCalendarFresh

/-! ## Infrastructure lemmas -/

theorem exceptBind_ok {ε α β : Type} (x : Except ε α) (f : α → Except ε β) (b : β) :
    (x >>= f) = .ok b ↔ ∃ a, x = .ok a ∧ f a = .ok b := by
  cases x <;> simp [Bind.bind, Except.bind]

theorem guarded_fresh {α : Type} (body : TripState → Except PyErr α) (oracle : Oracle)
    (now : Int) (client : ClientSlot) (s : TripState) (hup : s.updated = false) :
    guarded body oracle now client s = (s, body s) := by
  simp [guarded, hup]

/-! ## Shared concrete fixtures

A response whose single leg has the given distance and duration values, the
oracles used in concrete runs, and a few concrete trips. -/

/-- A response with one leg carrying the given `distance.value` and
`duration.value` (no steps). -/
def respLeg (d dur : Int) : RespJson := ⟨some [⟨some d, some dur, none⟩]⟩

/-- An oracle that answers by destination: the legs into stops `"A"`, `"B"`
and the destination `"D"` have durations 20 s, 1 s and 5 s; anything else
fails with status `NOT_FOUND`. -/
def oracleByDest : Oracle := fun c =>
  match c.destination with
  | .address "A" => .ok (respLeg 1000 20)
  | .address "B" => .ok (respLeg 1000 1)
  | .address "D" => .ok (respLeg 1000 5)
  | _ => .error (.apiError "NOT_FOUND" "not found")

/-- An oracle that resolves only the stop `"A"` (leg duration 20 s) and
fails anything else with status `NOT_FOUND`. -/
def oracleOnlyA : Oracle := fun c =>
  match c.destination with
  | .address "A" => .ok (respLeg 1000 20)
  | _ => .error (.apiError "NOT_FOUND" "not found")

/-- An oracle never consulted in fresh-cache runs. -/
def oracleUnused : Oracle := fun _ => .error (.apiError "UNKNOWN_ERROR" "unused")

/-- Trip `"O" → "A"(dep 10 s) → "B"(dep 12 s) → "D"`, departing at 0,
freshly constructed (empty cache, dirty). -/
def tripTwoStops : TripState :=
  Trip.init (.str "O") (.str "D")
    (some [(.str "A", 10000000), (.str "B", 12000000)]) (some 0) none none

/-- Trip `"O" → "A"(dep 10 s) → "D"`, departing at 0, freshly constructed. -/
def tripOneStop : TripState :=
  Trip.init (.str "O") (.str "D") (some [(.str "A", 10000000)]) (some 0) none none

/-- A fresh-cache one-stop trip whose two cached stages each have
`distance.value = 1000` and `duration.value = 60`. -/
def tripCachedStop : TripState :=
  { origin := ⟨.address "O"⟩, destination := ⟨.address "D"⟩
    stops := [⟨⟨.address "A"⟩, 0⟩]
    departure_date := some 0, arrival_date := none, config := {}
    api_response := .dict [("departure", respLeg 1000 60), ("arrival", respLeg 1000 60)]
    updated := false }

end PyTravel

deriving instance DecidableEq for Except

namespace PyTravel

instance stopsSortedDec (l : List Stop) : Decidable (stopsSorted l) := by
  unfold stopsSorted
  exact List.instDecidablePairwise l

/-! ## Claim C9 -/

/-- **C9.** The claim says a `Trip` with no bound Routing Provider client
fails `calculate_trip` with `ClientNotInitializedError`.  The code contradicts
its own docstring (`:raises ClientNotInitializedError:`): the class attribute
`client` is only *annotated*, never assigned, so with no client ever bound the
guard `if not self.client:` itself raises `AttributeError` before the intended
`ClientNotInitializedError` can be reached.  Evaluated here on a concrete
one-stop trip with no client bound: the call raises `AttributeError`, not
`ClientNotInitializedError`, and no provider call is made. -/
theorem claim_C9_unbound_client_attribute_error :
    (Trip.calculate_trip oracleOnlyA 0 none none tripOneStop).result
        = .error .attributeError ∧
    (Trip.calculate_trip oracleOnlyA 0 none none tripOneStop).result
        ≠ .error .clientNotInitialized ∧
    (Trip.calculate_trip oracleOnlyA 0 none none tripOneStop).calls = [] := by
  refine ⟨by decide, by decide, by decide⟩

/-! ## Claim C2 -/

/-- **C2.** The claim (and the accessor's own docstring, "The amount of
seconds travelled in the trip") says `Trip.seconds` sums the per-leg
*duration* values.  For a trip with stops the source sums
`get_distance(stage)` — the stage distances — instead.  Evaluated on a fresh
one-stop trip whose two cached stages each have distance 1000 m and duration
60 s: `seconds` returns 2000 (the summed distances) while the per-leg
durations are `[60, 60]`, whose sum (the claimed value) is 120 ≠ 2000. -/
theorem claim_C2_seconds_sums_distances_not_durations :
    (Trip.seconds oracleUnused 0 (some ()) tripCachedStop).2 = .ok 2000 ∧
    (Trip.stages_seconds oracleUnused 0 (some ()) tripCachedStop).2 = .ok [60, 60] ∧
    (2000 : Int) ≠ 60 + 60 := by
  refine ⟨by decide, by decide, by decide⟩

/-! ## Claim C10 -/

/-- **C10.** For a fresh no-stop trip whose cached leg has a *present*
`legs[0].distance.value` equal to 0, the total accessor `distance` returns
`0.0` while `stages_distances` raises
`InvalidResponseError("legs[0].distance.value")` (the `if not stage_meters`
test treats the present zero as missing); symmetrically a present-but-zero
`legs[0].duration.value` makes `seconds` return 0 while `stages_seconds`
raises `InvalidResponseError("legs[0].duration.value")`. -/
theorem claim_C10_zero_value_distance_vs_stages (oracle : Oracle) (now : Int)
    (client : ClientSlot) (s : TripState) (leg : LegJson) (rest : List LegJson)
    (hst : s.stops = []) (hup : s.updated = false)
    (hcache : s.api_response = .single ⟨some (leg :: rest)⟩) :
    (leg.distanceValue = some 0 →
      (Trip.distance oracle now client s).2 = .ok 0 ∧
      (Trip.stages_distances oracle now client s).2 =
        .error (.invalidResponse "legs[0].distance.value")) ∧
    (leg.durationValue = some 0 →
      (Trip.seconds oracle now client s).2 = .ok 0 ∧
      (Trip.stages_seconds oracle now client s).2 =
        .error (.invalidResponse "legs[0].duration.value")) := by
  constructor
  · intro h
    constructor
    · rw [Trip.distance, guarded_fresh _ _ _ _ _ hup]
      simp only [Trip.distanceFresh, hst, hcache, ApiCache.asResp, get_distance,
        legs0, h, ne_eq, not_true_eq_false, if_false, reduceIte, Option.getD_some,
        Bind.bind, Except.bind, Pure.pure, Except.pure]
      norm_num
      intro hunits
      norm_num [meters_to_miles, METERS_IN_MILE]
    · rw [Trip.stages_distances, guarded_fresh _ _ _ _ _ hup]
      simp [Trip.stagesDistancesFresh, hst, hcache, ApiCache.asResp,
        stageDistanceValue, legs0, h, falsyOptInt, Bind.bind, Except.bind,
        Pure.pure, Except.pure]
  · intro h
    constructor
    · rw [Trip.seconds, guarded_fresh _ _ _ _ _ hup]
      simp [Trip.secondsFresh, hst, hcache, ApiCache.asResp, get_duration,
        legs0, h, Bind.bind, Except.bind, Pure.pure, Except.pure]
    · rw [Trip.stages_seconds, guarded_fresh _ _ _ _ _ hup]
      simp [Trip.stagesSecondsFresh, hst, hcache, ApiCache.asResp,
        stageDurationValue, legs0, h, falsyOptInt, Bind.bind, Except.bind,
        Pure.pure, Except.pure]

/-- **C10 witness.** The theorem applied to a concrete fresh no-stop trip
whose cached leg has `distance.value = 0` and `duration.value = 0`. -/
theorem claim_C10_witness :
    (Trip.distance oracleUnused 0 (some ())
       (Trip.set_response (Trip.init (.str "O") (.str "D") none none none none)
         (.single ⟨some [⟨some 0, some 0, none⟩]⟩))).2 = .ok 0 ∧
    (Trip.stages_distances oracleUnused 0 (some ())
       (Trip.set_response (Trip.init (.str "O") (.str "D") none none none none)
         (.single ⟨some [⟨some 0, some 0, none⟩]⟩))).2 =
      .error (.invalidResponse "legs[0].distance.value") ∧
    (Trip.seconds oracleUnused 0 (some ())
       (Trip.set_response (Trip.init (.str "O") (.str "D") none none none none)
         (.single ⟨some [⟨some 0, some 0, none⟩]⟩))).2 = .ok 0 ∧
    (Trip.stages_seconds oracleUnused 0 (some ())
       (Trip.set_response (Trip.init (.str "O") (.str "D") none none none none)
         (.single ⟨some [⟨some 0, some 0, none⟩]⟩))).2 =
      .error (.invalidResponse "legs[0].duration.value") := by
  have h := claim_C10_zero_value_distance_vs_stages oracleUnused 0 (some ())
    (Trip.set_response (Trip.init (.str "O") (.str "D") none none none none)
      (.single ⟨some [⟨some 0, some 0, none⟩]⟩))
    ⟨some 0, some 0, none⟩ [] (by decide) (by decide) (by decide)
  obtain ⟨h1, h2⟩ := h
  obtain ⟨h1a, h1b⟩ := h1 rfl
  obtain ⟨h2a, h2b⟩ := h2 rfl
  exact ⟨h1a, h1b, h2a, h2b⟩

/-! ## Claim C3 -/

theorem mem_insertStop {z x : Stop} {l : List Stop} (h : z ∈ insertStop x l) :
    z = x ∨ z ∈ l := by
  induction l with
  | nil => simpa [insertStop] using h
  | cons y ys ih =>
    simp only [insertStop] at h
    by_cases hc : y.departure_date < x.departure_date
    · simp only [hc, if_true] at h
      rcases List.mem_cons.mp h with h1 | h2
      · exact Or.inr (h1 ▸ List.mem_cons_self y ys)
      · rcases ih h2 with h3 | h4
        · exact Or.inl h3
        · exact Or.inr (List.mem_cons_of_mem _ h4)
    · simp only [hc, if_false] at h
      rcases List.mem_cons.mp h with h1 | h2
      · exact Or.inl h1
      · exact Or.inr h2

theorem insertStop_pairwise {x : Stop} {l : List Stop} (h : stopsSorted l) :
    stopsSorted (insertStop x l) := by
  induction l with
  | nil => simp [insertStop, stopsSorted]
  | cons y ys ih =>
    simp only [stopsSorted, List.pairwise_cons] at h
    obtain ⟨hy, hys⟩ := h
    simp only [insertStop]
    by_cases hc : y.departure_date < x.departure_date
    · simp only [hc, if_true, stopsSorted, List.pairwise_cons]
      refine ⟨fun z hz => ?_, ih hys⟩
      rcases mem_insertStop hz with h1 | h2
      · exact h1 ▸ le_of_lt hc
      · exact hy z h2
    · simp only [hc, if_false, stopsSorted, List.pairwise_cons]
      push_neg at hc
      refine ⟨fun z hz => ?_, hy, hys⟩
      rcases List.mem_cons.mp hz with h1 | h2
      · exact h1 ▸ hc
      · exact le_trans hc (hy z h2)

theorem sortStops_sorted (l : List Stop) : stopsSorted (sortStops l) := by
  induction l with
  | nil => simp [sortStops, stopsSorted]
  | cons x xs ih => exact insertStop_pairwise ih

/-- **C3 counterexample.** The claim says the stored stop list is sorted
ascending by `departure_date` after *every* operation, including
`calculate_trip` and the `update_dates` it triggers.  Concrete refutation:
the trip `"O" → "A"(dep 10 s) → "B"(dep 12 s) → "D"` departing at 0, with
leg durations 20 s, 1 s, 5 s, is constructed sorted, but `calculate_trip`'s
date reconciliation overwrites stop `"A"`'s departure with its computed
arrival 20 s without re-sorting, leaving the stored list
`[20 s, 12 s]` — not sorted. -/
theorem claim_C3_counterexample :
    stopsSorted tripTwoStops.stops ∧
    (Trip.calculate_trip oracleByDest 0 (some ()) none tripTwoStops).state.stops.map
        Stop.departure_date = [20000000, 12000000] ∧
    ¬ stopsSorted
        (Trip.calculate_trip oracleByDest 0 (some ()) none tripTwoStops).state.stops := by
  refine ⟨by decide, by decide, by decide⟩

/-- **C3 (amended).** The sortedness invariant does hold after the two stop
*mutations*: construction (`Trip.__init__`, for every permutation of the
input stops) and the `stops` setter both store
`sort(key=departure_date)`-sorted lists.  (Per the counterexample, the
invariant does not survive `calculate_trip`/`update_dates`, which can
overwrite a stop's departure date with a later computed arrival without
re-sorting.) -/
theorem claim_C3_sorted_after_init_and_setter :
    (∀ (origin destination : LocInput)
       (stops : Option (List (LocInput × Int)))
       (dep arr : Option Int) (config : Option TripConfig),
        stopsSorted (Trip.init origin destination stops dep arr config).stops) ∧
    (∀ (s : TripState) (stops : List (LocInput × Int)),
        stopsSorted (Trip.setStops s stops).stops) := by
  constructor
  · intro origin destination stops dep arr config
    exact sortStops_sorted _
  · intro s stops
    exact sortStops_sorted _

/-! ## Claim C1 -/

theorem exceptBind_err {ε α β : Type} (x : Except ε α) (f : α → Except ε β) (e : ε) :
    (x >>= f) = .error e ↔ x = .error e ∨ ∃ a, x = .ok a ∧ f a = .error e := by
  cases x <;> simp [Bind.bind, Except.bind]

/-- Errors the provider wrapper can raise (the `Client.directions`
translation layer): `LocationNotFoundError` or the library `ApiError`. -/
def ProviderErr (e : PyErr) : Prop :=
  e = .locationNotFound ∨ ∃ status message, e = .apiError status message

theorem clientDirections_err {oracle : Oracle} {rec : CallRecord} {e : PyErr}
    (h : Client.directions oracle rec = .error e) : ProviderErr e := by
  unfold Client.directions at h
  cases ho : oracle rec with
  | ok r => rw [ho] at h; simp at h
  | error ge =>
    rw [ho] at h
    cases ge with
    | apiError status message =>
      dsimp only at h
      by_cases hs : status = "NOT_FOUND"
      · rw [if_pos hs] at h
        cases h
        exact Or.inl rfl
      · rw [if_neg hs] at h
        cases h
        exact Or.inr ⟨status, message, rfl⟩

theorem mapM_err {α β : Type} (f : α → Except PyErr β) (l : List α) (e : PyErr)
    (h : l.mapM f = .error e) : ∃ x ∈ l, f x = .error e := by
  induction l with
  | nil => simp [List.mapM, List.mapM.loop, pure, Except.pure] at h
  | cons x xs ih =>
    rw [List.mapM_cons] at h
    rcases (exceptBind_err _ _ _).mp h with h1 | ⟨b, hb, h2⟩
    · exact ⟨x, List.mem_cons_self x xs, h1⟩
    · rcases (exceptBind_err _ _ _).mp h2 with h3 | ⟨bs, hbs, h4⟩
      · obtain ⟨y, hy, hf⟩ := ih h3
        exact ⟨y, List.mem_cons_of_mem x hy, hf⟩
      · simp [pure, Except.pure] at h4

/-- The exception classes `update_dates` can raise — from `stages_seconds`
(`InvalidResponseError`, `IndexError` from `legs[0]` on an empty legs list,
`AttributeError` on a bare-response cache) and from list indexing
(`IndexError`) — never a provider error. -/
theorem legs0_err {j : RespJson} {e : PyErr} (h : legs0 j = .error e) :
    e = .indexError := by
  unfold legs0 at h
  rcases hl : j.legs with _ | (_ | ⟨l, ls⟩) <;> rw [hl] at h <;>
    dsimp only at h <;> simp_all

theorem stageDurationValue_err {stage : RespJson} {e : PyErr}
    (h : stageDurationValue stage = .error e) : e = .indexError := by
  unfold stageDurationValue at h
  rcases (exceptBind_err _ _ _).mp h with h1 | ⟨a, _, h2⟩
  · exact legs0_err h1
  · simp [pure, Except.pure] at h2

theorem stagesSecondsFresh_err {s : TripState} {e : PyErr}
    (h : Trip.stagesSecondsFresh s = .error e) : ¬ ProviderErr e := by
  have hshape : e = .indexError ∨ e = .attributeError ∨ ∃ f, e = .invalidResponse f := by
    unfold Trip.stagesSecondsFresh at h
    by_cases hst : s.stops ≠ []
    · rw [if_pos hst] at h
      rcases (exceptBind_err _ _ _).mp h with h1 | ⟨stages, _, h2⟩
      · rcases hc : s.api_response with d | r <;> rw [hc] at h1
        · cases h1
        · cases h1
          exact Or.inr (Or.inl rfl)
      · obtain ⟨stage, _, hf⟩ := mapM_err _ _ _ h2
        rcases (exceptBind_err _ _ _).mp hf with h3 | ⟨v, _, h4⟩
        · exact Or.inl (stageDurationValue_err h3)
        · by_cases hfv : falsyOptInt v = true
          · rw [if_pos hfv] at h4
            cases h4
            exact Or.inr (Or.inr ⟨_, rfl⟩)
          · rw [if_neg hfv] at h4
            simp [pure, Except.pure] at h4
    · rw [if_neg hst] at h
      rcases (exceptBind_err _ _ _).mp h with h1 | ⟨v, _, h2⟩
      · exact Or.inl (stageDurationValue_err h1)
      · by_cases hfv : falsyOptInt v = true
        · rw [if_pos hfv] at h2
          cases h2
          exact Or.inr (Or.inr ⟨_, rfl⟩)
        · rw [if_neg hfv] at h2
          simp [pure, Except.pure] at h2
  rintro (he | ⟨st, m, he⟩) <;> subst he <;>
    rcases hshape with h1 | h2 | ⟨f, h3⟩ <;> simp_all

theorem listIdx_err {α : Type} {l : List α} {i : Nat} {e : PyErr}
    (h : listIdx l i = .error e) : e = .indexError := by
  unfold listIdx at h
  rcases hx : l[i]? with _ | x
  · rw [hx] at h
    cases h
    rfl
  · rw [hx] at h
    cases h

theorem listNeg1_err {α : Type} {l : List α} {e : PyErr}
    (h : listNeg1 l = .error e) : e = .indexError := by
  unfold listNeg1 at h
  rcases hx : l.getLast? with _ | x
  · rw [hx] at h
    cases h
    rfl
  · rw [hx] at h
    cases h

theorem stopsDatesLoop_err {ts : List Int} {idx : Nat} {cur : Int}
    {l : List Stop} {e : PyErr}
    (h : stopsDatesLoop ts idx cur l = .error e) : e = .indexError := by
  induction l generalizing idx cur with
  | nil => simp [stopsDatesLoop, pure, Except.pure] at h
  | cons st rest ih =>
    rw [stopsDatesLoop] at h
    rcases (exceptBind_err _ _ _).mp h with h1 | ⟨t, _, h2⟩
    · exact listIdx_err h1
    · rcases (exceptBind_err _ _ _).mp h2 with h3 | ⟨trip, _, h4⟩
      · exact ih h3
      · simp [pure, Except.pure] at h4

theorem updDeparture_err {now : Int} {s : TripState} {ts : List Int} {e : PyErr}
    (h : updDeparture now s ts = .error e) : e = .indexError := by
  unfold updDeparture at h
  rcases hd : s.departure_date with _ | dep <;>
    rcases ha : s.arrival_date with _ | arr <;> rw [hd, ha] at h <;> dsimp only at h
  · simp [pure, Except.pure] at h
  · by_cases hst : s.stops = []
    · rw [if_pos hst] at h
      rcases (exceptBind_err _ _ _).mp h with h5 | ⟨t0, _, h6⟩
      · exact listIdx_err h5
      · simp [pure, Except.pure] at h6
    · rw [if_neg hst] at h
      rcases (exceptBind_err _ _ _).mp h with h5 | ⟨st0, _, h6⟩
      · exact listIdx_err h5
      · rcases (exceptBind_err _ _ _).mp h6 with h7 | ⟨t0, _, h8⟩
        · exact listIdx_err h7
        · simp [pure, Except.pure] at h8
  · simp [pure, Except.pure] at h
  · simp [pure, Except.pure] at h

theorem updStops_err {dep : Int} {s : TripState} {ts : List Int} {e : PyErr}
    (h : updStops dep s ts = .error e) : e = .indexError := by
  unfold updStops at h
  by_cases hst : s.stops ≠ []
  · rw [if_pos hst] at h
    rcases (exceptBind_err _ _ _).mp h with h1 | ⟨lcw, _, h2⟩
    · exact stopsDatesLoop_err h1
    · simp [pure, Except.pure] at h2
  · rw [if_neg hst] at h
    simp [pure, Except.pure] at h

theorem updArrival_matchPart_err {na : Int} {s : TripState} {e : PyErr}
    (h : (match s.arrival_date with
          | none =>
            pure (na, [Warn.updateDate "arrival" "No arrival date provided"])
          | some a =>
            if a ≠ na then
              pure (na, [Warn.updateDate "arrival" "Calculated arrival does not match"])
            else pure (a, ([] : List Warn))
          : Except PyErr (Int × List Warn)) = .error e) : False := by
  rcases ha : s.arrival_date with _ | a <;> rw [ha] at h <;> dsimp only at h
  · simp [pure, Except.pure] at h
  · by_cases he : a ≠ na
    · rw [if_pos he] at h
      simp [pure, Except.pure] at h
    · rw [if_neg he] at h
      simp [pure, Except.pure] at h

theorem updArrival_err {dep : Int} {stops' : List Stop} {s : TripState}
    {ts : List Int} {e : PyErr}
    (h : updArrival dep stops' s ts = .error e) : e = .indexError := by
  unfold updArrival at h
  dsimp only at h
  by_cases hst : s.stops = []
  · rw [if_pos hst] at h
    rcases (exceptBind_err _ _ _).mp h with h3 | ⟨t0, _, h4⟩
    · exact listIdx_err h3
    · rcases (exceptBind_err _ _ _).mp h4 with h5 | ⟨y, _, h6⟩
      · simp [pure, Except.pure] at h5
      · exact absurd h6 (fun hc => updArrival_matchPart_err hc)
  · rw [if_neg hst] at h
    rcases (exceptBind_err _ _ _).mp h with h3 | ⟨last, _, h4⟩
    · exact listNeg1_err h3
    · rcases (exceptBind_err _ _ _).mp h4 with h5 | ⟨tl, _, h6⟩
      · exact listNeg1_err h5
      · rcases (exceptBind_err _ _ _).mp h6 with h7 | ⟨y, _, h8⟩
        · simp [pure, Except.pure] at h7
        · exact absurd h8 (fun hc => updArrival_matchPart_err hc)

/-- `update_dates` never raises a provider error: its failures come from
`stages_seconds` or list indexing. -/
theorem update_dates_err {now : Int} {s : TripState} {e : PyErr}
    (h : Trip.update_dates now s = .error e) : ¬ ProviderErr e := by
  have hidx : e = .indexError → ¬ ProviderErr e := by
    rintro rfl (he | ⟨st, m, he⟩) <;> simp at he
  unfold Trip.update_dates at h
  rcases (exceptBind_err _ _ _).mp h with h1 | ⟨ts, _, h2⟩
  · exact stagesSecondsFresh_err h1
  rcases (exceptBind_err _ _ _).mp h2 with h3 | ⟨dw, _, h4⟩
  · exact hidx (updDeparture_err h3)
  rcases (exceptBind_err _ _ _).mp h4 with h5 | ⟨sw, _, h6⟩
  · exact hidx (updStops_err h5)
  rcases (exceptBind_err _ _ _).mp h6 with h7 | ⟨aw, _, h8⟩
  · exact hidx (updArrival_err h7)
  · simp [pure, Except.pure] at h8

/-- Folding a list of key/response pairs into a dict with `dictSet`:
the shape of a cache that was committed to entry by entry. -/
def overlay (d : RespDict) (entries : List (String × RespJson)) : RespDict :=
  entries.foldl (fun acc kv => dictSet acc kv.1 kv.2) d

/-- The per-stop call loop only ever adds entries on top of the dict it
started from: its final cache is the initial dict overlaid with one entry
per successfully fetched leg. -/
theorem stopsCallLoop_overlay (oracle : Oracle) (cfg : TripConfig)
    (d : RespDict) (loc : LocData) (date : Int) (idx : Nat) (stops : List Stop) :
    ∃ entries,
      (stopsCallLoop oracle cfg (.dict d) loc date idx stops).1 =
        .dict (overlay d entries) := by
  induction stops generalizing d loc date idx with
  | nil => exact ⟨[], rfl⟩
  | cons stop rest ih =>
    rw [stopsCallLoop]
    rcases hdir : Client.directions oracle
        { origin := loc, destination := stop.location.data
          dateArg := .departureTime date, config := cfg } with e | response
    · exact ⟨[], by simp [hdir, overlay]⟩
    · simp only [hdir]
      obtain ⟨entries, hE⟩ := ih (dictSet d
        (if idx > 0 then "stage_" ++ toString idx else "departure") response)
        stop.location.data stop.departure_date (idx + 1)
      refine ⟨((if idx > 0 then "stage_" ++ toString idx else "departure"), response)
        :: entries, ?_⟩
      simpa [ApiCache.setItem, overlay] using hE

/-- The error reported by the per-stop call loop is a provider error. -/
theorem stopsCallLoop_err (oracle : Oracle) (cfg : TripConfig)
    (c : ApiCache) (loc : LocData) (date : Int) (idx : Nat) (stops : List Stop)
    (e : PyErr)
    (h : (stopsCallLoop oracle cfg c loc date idx stops).2.2.2.2 = some e) :
    ProviderErr e := by
  induction stops generalizing c loc date idx with
  | nil => simp [stopsCallLoop] at h
  | cons stop rest ih =>
    rw [stopsCallLoop] at h
    rcases hdir : Client.directions oracle
        { origin := loc, destination := stop.location.data
          dateArg := .departureTime date, config := cfg } with e' | response
    · rw [hdir] at h
      cases h
      exact clientDirections_err hdir
    · rw [hdir] at h
      exact ih _ _ _ _ h

theorem readClient_err {c : ClientSlot} {e : PyErr}
    (h : readClient c = .error e) : e = .attributeError := by
  rcases c with _ | u
  · cases h
    rfl
  · cases h

/-- `Trip.calcCore` on a stop-trip with a dict cache: a provider-classed
failure leaves the dirty flag set and the cache equal to the initial dict
overlaid with the entries for the legs fetched before the failure. -/
theorem calcCore_provider_err (oracle : Oracle) (now : Int) (client : ClientSlot)
    (s : TripState) (d₀ : RespDict) (e : PyErr)
    (hstops : s.stops ≠ []) (hdict : s.api_response = .dict d₀)
    (hres : (Trip.calcCore oracle now client s).result = .error e)
    (he : ProviderErr e) :
    (Trip.calcCore oracle now client s).state.updated = true ∧
    ∃ entries, (Trip.calcCore oracle now client s).state.api_response =
      .dict (overlay d₀ entries) := by
  have hup2 : ∀ b : Bool, ¬ (b = false) → b = true := by decide
  set C := Trip.calcCore oracle now client s with hC
  rw [Trip.calcCore] at hC
  by_cases hup : s.updated = false
  · rw [if_pos hup] at hC
    rw [hC] at hres
    cases hres
  · rw [if_neg hup] at hC
    cases hcl : readClient client with
    | error ec =>
      rw [hcl] at hC
      dsimp only at hC
      rw [hC] at hres
      cases hres
      have : e = .attributeError := readClient_err hcl
      subst this
      rcases he with h1 | ⟨st, m, h2⟩ <;> simp_all
    | ok u =>
      rw [hcl] at hC
      dsimp only at hC
      rw [show clientFalsy u = false from rfl] at hC
      rw [if_neg (by simp)] at hC
      rw [if_pos hstops] at hC
      rcases hLP : stopsCallLoop oracle s.config s.api_response s.origin.data
          (s.departure_date.getD now) 0 s.stops with ⟨cache₁, loc₁, date₁, calls₁, err⟩
      rw [hLP] at hC
      dsimp only at hC
      have hcache₁ : ∃ entries, cache₁ = .dict (overlay d₀ entries) := by
        obtain ⟨entries, hE⟩ := stopsCallLoop_overlay oracle s.config d₀
          s.origin.data (s.departure_date.getD now) 0 s.stops
        rw [← hdict] at hE
        rw [hLP] at hE
        exact ⟨entries, hE⟩
      cases err with
      | some e' =>
        rw [hC]
        exact ⟨hup2 _ hup, hcache₁⟩
      | none =>
        dsimp only at hC
        cases hdir : Client.directions oracle
            { origin := loc₁, destination := s.destination.data
              dateArg := .departureTime date₁, config := s.config } with
        | error e' =>
          rw [hdir] at hC
          rw [hC]
          exact ⟨hup2 _ hup, hcache₁⟩
        | ok response =>
          rw [hdir] at hC
          dsimp only at hC
          cases hud : Trip.update_dates now
              { s with api_response := cache₁.setItem "arrival" response
                       updated := false } with
          | error e'' =>
            rw [hud] at hC
            rw [hC] at hres
            cases hres
            exact absurd he (update_dates_err hud)
          | ok pair =>
            rw [hud] at hC
            rw [hC] at hres
            cases hres

/-! ## Claim C1 counterexample and amended theorem -/

/-- **C1 counterexample.** The claim says a provider failure on any leg
leaves the cached `api_response` mapping *exactly as it was* before
`calculate_trip` (earlier legs of the same call discarded).  Concrete
refutation: the one-stop trip `"O" → "A"(dep 10 s) → "D"` with an empty
cache, where the leg to `"A"` succeeds and the final leg to `"D"` fails with
`NOT_FOUND`: `calculate_trip` propagates `LocationNotFoundError` and the
dirty flag stays true (as claimed), but the cache is *not* unchanged — it
now holds the `"departure"` entry fetched for the first leg. -/
theorem claim_C1_counterexample :
    (Trip.calculate_trip oracleOnlyA 0 (some ()) none tripOneStop).result
        = .error .locationNotFound ∧
    (Trip.calculate_trip oracleOnlyA 0 (some ()) none tripOneStop).state.updated = true ∧
    (Trip.calculate_trip oracleOnlyA 0 (some ()) none tripOneStop).state.api_response
        ≠ tripOneStop.api_response ∧
    (Trip.calculate_trip oracleOnlyA 0 (some ()) none tripOneStop).state.api_response
        = .dict [("departure", respLeg 1000 20)] := by
  refine ⟨by decide, by decide, by decide, by decide⟩

/-- **C1 (amended).** For a stale trip with stops (dict-shaped cache), when a
per-leg provider call inside `calculate_trip` fails (the error is a provider
error — `LocationNotFound` or `ApiError`), the exception propagates and the
dirty flag is still true, but the cache is *not* restored: it equals the
pre-call cache overlaid (`dictSet` by `dictSet`) with one entry per leg that
was fetched before the failure — partial commits remain. -/
theorem claim_C1_partial_commit_on_leg_failure (oracle : Oracle) (now : Int)
    (client : ClientSlot) (trip_config : Option TripConfig) (s₀ : TripState)
    (d₀ : RespDict) (e : PyErr)
    (hstops : s₀.stops ≠ []) (hdict : s₀.api_response = .dict d₀)
    (hres : (Trip.calculate_trip oracle now client trip_config s₀).result = .error e)
    (he : ProviderErr e) :
    (Trip.calculate_trip oracle now client trip_config s₀).state.updated = true ∧
    ∃ entries,
      (Trip.calculate_trip oracle now client trip_config s₀).state.api_response =
        .dict (overlay d₀ entries) := by
  unfold Trip.calculate_trip at hres ⊢
  exact calcCore_provider_err oracle now client (configStep trip_config s₀) d₀ e
    (by rw [configStep_stops]; exact hstops)
    (by rw [configStep_api_response]; exact hdict)
    hres he

/-- **C1 witness.** The amended theorem applied to the concrete one-stop trip
whose final leg fails with `NOT_FOUND`. -/
theorem claim_C1_witness :
    (Trip.calculate_trip oracleOnlyA 0 (some ()) none tripOneStop).state.updated = true ∧
    ∃ entries,
      (Trip.calculate_trip oracleOnlyA 0 (some ()) none tripOneStop).state.api_response =
        .dict (overlay [] entries) :=
  claim_C1_partial_commit_on_leg_failure oracleOnlyA 0 (some ()) none tripOneStop
    [] .locationNotFound (by decide) (by decide) (by decide) (Or.inl rfl)

/-! ## Claim C4 -/

/-- Modelled from the spec: the stop-correction loop as the claim describes
it — identical to `stopsDatesLoop` except that the running time advances to
the *possibly corrected* stop departure time (`newStop.departure_date`,
which is `expected_arrival` whenever a correction was applied), not to the
loop variable's original value. -/
def stopsDatesLoopSpec (travel_times : List Int) (index : Nat) (current_date : Int) :
    List Stop → Except PyErr (List Stop × Int × List Warn)
  | [] => .ok ([], current_date, [])
  | stop :: rest => do
    let t ← listIdx travel_times index
    let stop_arrival := current_date + t * 1000000
    let (newStop, w) :=
      if stop.departure_date < stop_arrival then
        (({ location := stop.location, departure_date := stop_arrival } : Stop),
         [Warn.updateDate "stop" "Calculated arrival before departure date"])
      else (stop, ([] : List Warn))
    let (rest', final, ws) ←
      stopsDatesLoopSpec travel_times (index + 1) newStop.departure_date rest
    pure (newStop :: rest', final, w ++ ws)

/-- Modelled from the spec: `updStops` with the claim's advancing rule. -/
def updStopsSpec (dep : Int) (s : TripState) (travel_times : List Int) :
    Except PyErr (List Stop × List Warn) :=
  if s.stops ≠ [] then do
    let lcw ← stopsDatesLoopSpec travel_times 0 dep s.stops
    pure (lcw.1, lcw.2.2)
  else pure (s.stops, ([] : List Warn))

/-- Modelled from the spec: `update_dates` as the claim describes it, i.e.
with the running time advancing to the possibly-corrected stop departure. -/
def Trip.update_datesSpecAdvance (now : Int) (s : TripState) :
    Except PyErr (TripState × List Warn) := do
  let travel_times ← Trip.stagesSecondsFresh s
  let dw ← updDeparture now s travel_times
  let sw ← updStopsSpec dw.1 s travel_times
  let aw ← updArrival dw.1 sw.1 s travel_times
  pure ({ s with departure_date := some dw.1, arrival_date := some aw.1, stops := sw.1 },
    dw.2 ++ sw.2 ++ aw.2)

/-- A fresh-cache two-stop trip, departure at 0, stops `"A"` (given
departure 10 s) and `"B"` (given departure 12 s), cached stage durations
20 s, 10 s and 5 s. -/
def tripCachedTwoStops : TripState :=
  { origin := ⟨.address "O"⟩, destination := ⟨.address "D"⟩
    stops := [⟨⟨.address "A"⟩, 10000000⟩, ⟨⟨.address "B"⟩, 12000000⟩]
    departure_date := some 0, arrival_date := none, config := {}
    api_response := .dict [("departure", respLeg 1000 20), ("stage_1", respLeg 1000 10),
      ("arrival", respLeg 1000 5)]
    updated := false }

/-- **C4 counterexample.** The claim says the running time advances to the
possibly-corrected stop departure (to `expected_arrival` whenever a
correction was applied).  The source advances `current_date` to the *loop
variable's* pre-correction departure instead.  Concrete refutation (stops
given at 10 s and 12 s, departure 0, leg times 20 s/10 s/5 s): the code
computes stop 2's expected arrival from the original 10 s (10+10 = 20 s) and
final arrival 25 s, while the claim's rule would compute it from the
corrected 20 s (20+10 = 30 s) and final arrival 35 s — the two
reconciliations differ. -/
theorem claim_C4_counterexample :
    (Trip.update_dates 0 tripCachedTwoStops).map
        (fun p => (p.1.stops.map Stop.departure_date, p.1.arrival_date)) =
      .ok ([20000000, 20000000], some 25000000) ∧
    (Trip.update_datesSpecAdvance 0 tripCachedTwoStops).map
        (fun p => (p.1.stops.map Stop.departure_date, p.1.arrival_date)) =
      .ok ([20000000, 30000000], some 35000000) ∧
    Trip.update_dates 0 tripCachedTwoStops ≠
      Trip.update_datesSpecAdvance 0 tripCachedTwoStops := by
  refine ⟨by decide, by decide, by decide⟩

/-- The closed form of the source's stop-correction loop: each stop's stored
departure becomes `max(original departure, expected_arrival)` where
`expected_arrival` is computed from the *previous stop's original* departure
(the trip departure for the first stop) plus the leg's travel time. -/
def reconDates (travel_times : List Int) (index : Nat) (current : Int) :
    List Stop → List Stop
  | [] => []
  | stop :: rest =>
    { location := stop.location
      departure_date :=
        max stop.departure_date (current + travel_times.getD index 0 * 1000000) }
      :: reconDates travel_times (index + 1) stop.departure_date rest

/-- One date-updated warning per corrected stop, in stop order. -/
def reconWarns (travel_times : List Int) (index : Nat) (current : Int) :
    List Stop → List Warn
  | [] => []
  | stop :: rest =>
    (if stop.departure_date < current + travel_times.getD index 0 * 1000000 then
      [Warn.updateDate "stop" "Calculated arrival before departure date"]
     else []) ++ reconWarns travel_times (index + 1) stop.departure_date rest

/-- The loop's final `current_date`: the last *original* stop departure. -/
def lastOrig (current : Int) : List Stop → Int
  | [] => current
  | stop :: rest => lastOrig stop.departure_date rest

theorem listIdx_ok (l : List Int) (i : Nat) (h : i < l.length) :
    listIdx l i = .ok (l.getD i 0) := by
  unfold listIdx
  rw [List.getElem?_eq_getElem h]
  rw [List.getD_eq_getElem l 0 h]

theorem stopsDatesLoop_eq (ts : List Int) (idx : Nat) (cur : Int) (l : List Stop)
    (hlen : idx + l.length ≤ ts.length) :
    stopsDatesLoop ts idx cur l =
      .ok (reconDates ts idx cur l, lastOrig cur l, reconWarns ts idx cur l) := by
  induction l generalizing idx cur with
  | nil => rfl
  | cons stop rest ih =>
    rw [stopsDatesLoop]
    have hi : idx < ts.length := by simp at hlen; omega
    rw [listIdx_ok ts idx hi]
    have hrec := ih (idx + 1) stop.departure_date (by simp at hlen ⊢; omega)
    simp only [Bind.bind, Except.bind]
    by_cases hc : stop.departure_date < cur + ts.getD idx 0 * 1000000
    · rw [if_pos hc]
      dsimp only
      rw [hrec]
      dsimp only [pure, Except.pure]
      simp only [reconDates, reconWarns, lastOrig, if_pos hc]
      rw [max_eq_right (le_of_lt hc)]
    · rw [if_neg hc]
      dsimp only
      rw [hrec]
      dsimp only [pure, Except.pure]
      simp only [reconDates, reconWarns, lastOrig, if_neg hc]
      rw [max_eq_left (by omega)]

theorem reconDates_length (ts : List Int) (idx : Nat) (cur : Int) (l : List Stop) :
    (reconDates ts idx cur l).length = l.length := by
  induction l generalizing idx cur with
  | nil => rfl
  | cons stop rest ih => simp [reconDates, ih]

theorem listNeg1_ok {α : Type} (l : List α) (h : l ≠ []) :
    ∃ x, listNeg1 l = .ok x := by
  unfold listNeg1
  rcases hx : l.getLast? with _ | x
  · exact absurd (List.getLast?_eq_none_iff.mp hx) h
  · exact ⟨x, rfl⟩

/-- **C4 (amended).** During date reconciliation with a given departure, for
each stop in order the expected arrival is computed as
`running_time + duration(leg into the stop)` where the running time is the
*previous stop's original (pre-correction) departure* (the trip departure for
the first stop) — not the corrected value the claim describes.  A stop whose
given departure is earlier than that expected arrival is overwritten with it
(`max(original, expected)`), and a date-updated condition is reported exactly
for the corrected stops; the loop then advances the running time to the
original departure even when a correction was applied. -/
theorem claim_C4_running_time_uses_original_departure
    (now : Int) (s : TripState) (dep : Int) (ts : List Int)
    (hdep : s.departure_date = some dep)
    (hts : Trip.stagesSecondsFresh s = .ok ts)
    (hst : s.stops ≠ [])
    (hlen : s.stops.length ≤ ts.length) :
    ∃ s' ws arrW,
      Trip.update_dates now s = .ok (s', ws) ∧
      s'.stops = reconDates ts 0 dep s.stops ∧
      ws = reconWarns ts 0 dep s.stops ++ arrW := by
  have hdw : updDeparture now s ts = .ok (dep, []) := by
    unfold updDeparture
    rw [hdep]
    rcases ha : s.arrival_date with _ | a <;> rfl
  have hsw : updStops dep s ts = .ok (reconDates ts 0 dep s.stops,
      reconWarns ts 0 dep s.stops) := by
    unfold updStops
    rw [if_pos hst]
    rw [stopsDatesLoop_eq ts 0 dep s.stops (by omega)]
    rfl
  have hrecne : reconDates ts 0 dep s.stops ≠ [] := by
    intro hcon
    have := reconDates_length ts 0 dep s.stops
    rw [hcon] at this
    simp at this
    exact hst (List.length_eq_zero.mp this.symm)
  have htsne : ts ≠ [] := by
    intro hcon
    rw [hcon] at hlen
    simp at hlen
    exact hst hlen
  obtain ⟨last, hlast⟩ := listNeg1_ok (reconDates ts 0 dep s.stops) hrecne
  obtain ⟨tl, htl⟩ := listNeg1_ok ts htsne
  have haw : ∃ aw, updArrival dep (reconDates ts 0 dep s.stops) s ts = .ok aw := by
    unfold updArrival
    dsimp only
    rw [if_neg (fun hcon => hst hcon)]
    rw [hlast]
    dsimp only [Bind.bind, Except.bind]
    rw [htl]
    dsimp only [pure, Except.pure]
    rcases ha : s.arrival_date with _ | a
    · exact ⟨_, rfl⟩
    · dsimp only
      by_cases hne : a ≠ last.departure_date + tl * 1000000
      · rw [if_pos hne]
        exact ⟨_, rfl⟩
      · rw [if_neg hne]
        exact ⟨_, rfl⟩
  obtain ⟨aw, haw⟩ := haw
  have hmain : Trip.update_dates now s =
      .ok ({ s with departure_date := some dep, arrival_date := some aw.1
                    stops := reconDates ts 0 dep s.stops },
        reconWarns ts 0 dep s.stops ++ aw.2) := by
    unfold Trip.update_dates
    rw [hts]
    dsimp only [Bind.bind, Except.bind]
    rw [hdw]
    dsimp only
    rw [hsw]
    dsimp only
    rw [haw]
    rfl
  exact ⟨_, _, aw.2, hmain, rfl, rfl⟩

/-- **C4 witness.** The amended theorem applied to the concrete two-stop
cached trip. -/
theorem claim_C4_witness :
    ∃ s' ws arrW,
      Trip.update_dates 0 tripCachedTwoStops = .ok (s', ws) ∧
      s'.stops = reconDates [20, 10, 5] 0 0 tripCachedTwoStops.stops ∧
      ws = reconWarns [20, 10, 5] 0 0 tripCachedTwoStops.stops ++ arrW :=
  claim_C4_running_time_uses_original_departure 0 tripCachedTwoStops 0 [20, 10, 5]
    (by decide) (by decide) (by decide) (by decide)

/-! ## Claims C7 and C8: success-path lemmas -/

theorem update_dates_ok_fields {now : Int} {s s₂ : TripState} {ws : List Warn}
    (h : Trip.update_dates now s = .ok (s₂, ws)) :
    s₂.updated = s.updated ∧ s₂.api_response = s.api_response := by
  unfold Trip.update_dates at h
  rcases (exceptBind_ok _ _ _).mp h with ⟨ts, hts, h2⟩
  rcases (exceptBind_ok _ _ _).mp h2 with ⟨dw, hdw, h3⟩
  rcases (exceptBind_ok _ _ _).mp h3 with ⟨sw, hsw, h4⟩
  rcases (exceptBind_ok _ _ _).mp h4 with ⟨aw, haw, h5⟩
  simp only [pure, Except.pure, Except.ok.injEq, Prod.mk.injEq] at h5
  obtain ⟨h6, _⟩ := h5
  rw [← h6]
  exact ⟨rfl, rfl⟩

theorem calcCore_fresh (oracle : Oracle) (now : Int) (client : ClientSlot)
    (s : TripState) (hup : s.updated = false) :
    Trip.calcCore oracle now client s =
      { state := s, result := .ok s.api_response, calls := [], warns := [] } := by
  unfold Trip.calcCore
  rw [if_pos hup]

/-- On any successful `calculate_trip` body run the final state's dirty flag
is false and the returned value is the final cache. -/
theorem calcCore_ok_state (oracle : Oracle) (now : Int) (client : ClientSlot)
    (s : TripState) (v : ApiCache)
    (hres : (Trip.calcCore oracle now client s).result = .ok v) :
    (Trip.calcCore oracle now client s).state.updated = false ∧
    v = (Trip.calcCore oracle now client s).state.api_response := by
  set C := Trip.calcCore oracle now client s with hC
  rw [Trip.calcCore] at hC
  by_cases hup : s.updated = false
  · rw [if_pos hup] at hC
    rw [hC] at hres ⊢
    cases hres
    exact ⟨hup, rfl⟩
  · rw [if_neg hup] at hC
    cases hcl : readClient client with
    | error ec =>
      rw [hcl] at hC
      dsimp only at hC
      rw [hC] at hres
      cases hres
    | ok u =>
      rw [hcl] at hC
      dsimp only at hC
      rw [show clientFalsy u = false from rfl] at hC
      rw [if_neg (by simp)] at hC
      by_cases hst : s.stops ≠ []
      · rw [if_pos hst] at hC
        rcases hLP : stopsCallLoop oracle s.config s.api_response s.origin.data
            (s.departure_date.getD now) 0 s.stops with ⟨cache₁, loc₁, date₁, calls₁, err⟩
        rw [hLP] at hC
        dsimp only at hC
        cases err with
        | some e' =>
          rw [hC] at hres
          cases hres
        | none =>
          dsimp only at hC
          cases hdir : Client.directions oracle
              { origin := loc₁, destination := s.destination.data
                dateArg := .departureTime date₁, config := s.config } with
          | error e' =>
            rw [hdir] at hC
            rw [hC] at hres
            cases hres
          | ok response =>
            rw [hdir] at hC
            dsimp only at hC
            cases hud : Trip.update_dates now
                { s with api_response := cache₁.setItem "arrival" response
                         updated := false } with
            | error e'' =>
              rw [hud] at hC
              rw [hC] at hres
              cases hres
            | ok pair =>
              obtain ⟨s₂, ws⟩ := pair
              rw [hud] at hC
              dsimp only at hC
              rw [hC] at hres ⊢
              cases hres
              have hud2 := update_dates_ok_fields hud
              exact ⟨hud2.1, rfl⟩
      · rw [if_neg hst] at hC
        cases hdir : rawDirections oracle
            { origin := s.origin.data, destination := s.destination.data
              dateArg :=
                match s.departure_date with
                | some d => .departureTime d
                | none =>
                  match s.arrival_date with
                  | some a =>
                    if s.config.modeOrDefault = "transit" then .arrivalTime a
                    else .departureTime now
                  | none => .departureTime now
              config := s.config } with
        | error e' =>
          rw [hdir] at hC
          rw [hC] at hres
          cases hres
        | ok response =>
          rw [hdir] at hC
          dsimp only at hC
          cases hud : Trip.update_dates now
              { s with api_response := .single response, updated := false } with
          | error e'' =>
            rw [hud] at hC
            rw [hC] at hres
            cases hres
          | ok pair =>
            obtain ⟨s₂, ws⟩ := pair
            rw [hud] at hC
            dsimp only at hC
            rw [hC] at hres ⊢
            cases hres
            have hud2 := update_dates_ok_fields hud
            exact ⟨hud2.1, rfl⟩

/-- **C7.** Calling `calculate_trip` twice with no mutator call in between
and no `trip_config` argument: after a successful first call, the second
invocation — under any oracle, clock and client binding — performs no
provider calls, emits no warnings, leaves the state unchanged, and returns
the identical cached `api_response` (the value the first call returned). -/
theorem claim_C7_second_call_is_noop (oracle oracle₂ : Oracle) (now now₂ : Int)
    (client client₂ : ClientSlot) (s₀ : TripState) (v : ApiCache)
    (h : (Trip.calculate_trip oracle now client none s₀).result = .ok v) :
    Trip.calculate_trip oracle₂ now₂ client₂ none
        (Trip.calculate_trip oracle now client none s₀).state =
      { state := (Trip.calculate_trip oracle now client none s₀).state
        result := .ok v, calls := [], warns := [] } := by
  have hdef : Trip.calculate_trip oracle now client none s₀ =
      Trip.calcCore oracle now client (configStep none s₀) := rfl
  have h1 := calcCore_ok_state oracle now client (configStep none s₀) v
    (by rw [← hdef]; exact h)
  rw [hdef, Trip.calculate_trip]
  rw [show configStep none (Trip.calcCore oracle now client (configStep none s₀)).state =
    (Trip.calcCore oracle now client (configStep none s₀)).state from rfl]
  rw [calcCore_fresh _ _ _ _ h1.1]
  rw [← h1.2]

/-- **C7 witness.** The theorem applied to a concrete successful first
computation (the no-stop trip `"O" → "D"` against `oracleByDest`). -/
theorem claim_C7_witness :
    Trip.calculate_trip oracleUnused 7 none none
        (Trip.calculate_trip oracleByDest 0 (some ()) none
          (Trip.init (.str "O") (.str "D") none (some 0) none none)).state =
      { state := (Trip.calculate_trip oracleByDest 0 (some ()) none
          (Trip.init (.str "O") (.str "D") none (some 0) none none)).state
        result := .ok (.single (respLeg 1000 5)), calls := [], warns := [] } :=
  claim_C7_second_call_is_noop oracleByDest oracleUnused 0 7 (some ()) none
    (Trip.init (.str "O") (.str "D") none (some 0) none none)
    (.single (respLeg 1000 5)) (by decide)

/-- **C8.** The dirty flag (`updated`) is true immediately after each of the
six mutators returns; it is false immediately after a successful
`calculate_trip`; and while it is false, reading any derived metric leaves
the state unchanged (so the flag stays false until the next mutation — the
setters and `calculate_trip` are the only state-changing operations). -/
theorem claim_C8_dirty_flag_protocol :
    (∀ (s : TripState) (x : LocInput), (Trip.setOrigin s x).updated = true) ∧
    (∀ (s : TripState) (x : LocInput), (Trip.setDestination s x).updated = true) ∧
    (∀ (s : TripState) (l : List (LocInput × Int)), (Trip.setStops s l).updated = true) ∧
    (∀ (s : TripState) (d : Int), (Trip.setDepartureDate s d).updated = true) ∧
    (∀ (s : TripState) (d : Int), (Trip.setArrivalDate s d).updated = true) ∧
    (∀ (s : TripState) (c : TripConfig), (Trip.setConfig s c).updated = true) ∧
    (∀ (oracle : Oracle) (now : Int) (client : ClientSlot)
       (tc : Option TripConfig) (s : TripState) (v : ApiCache),
      (Trip.calculate_trip oracle now client tc s).result = .ok v →
      (Trip.calculate_trip oracle now client tc s).state.updated = false) ∧
    (∀ (oracle : Oracle) (now : Int) (client : ClientSlot) (s : TripState),
      s.updated = false →
      (Trip.distance oracle now client s).1 = s ∧
      (Trip.seconds oracle now client s).1 = s ∧
      (Trip.days oracle now client s).1 = s ∧
      (Trip.stages_distances oracle now client s).1 = s ∧
      (Trip.stages_seconds oracle now client s).1 = s ∧
      (Trip.travel_calendar oracle now client s).1 = s) := by
  refine ⟨fun s x => rfl, fun s x => rfl, fun s l => rfl, fun s d => rfl,
    fun s d => rfl, fun s c => rfl, ?_, ?_⟩
  · intro oracle now client tc s v h
    exact (calcCore_ok_state oracle now client (configStep tc s) v h).1
  · intro oracle now client s hup
    refine ⟨?_, ?_, ?_, ?_, ?_, ?_⟩ <;>
      simp [Trip.distance, Trip.seconds, Trip.days, Trip.stages_distances,
        Trip.stages_seconds, Trip.travel_calendar, guarded, hup]

/-- **C8 witness.** The theorem's components applied at concrete inputs:
a mutator on the fresh cached trip sets the flag, a successful (cached)
`calculate_trip` run reports a false flag, and a fresh read leaves the state
unchanged. -/
theorem claim_C8_witness :
    (Trip.setOrigin tripCachedStop (.str "X")).updated = true ∧
    (Trip.calculate_trip oracleUnused 0 (some ()) none tripCachedStop).state.updated
      = false ∧
    (Trip.distance oracleUnused 0 (some ()) tripCachedStop).1 = tripCachedStop := by
  refine ⟨claim_C8_dirty_flag_protocol.1 tripCachedStop (.str "X"), ?_, ?_⟩
  · exact claim_C8_dirty_flag_protocol.2.2.2.2.2.2.1 oracleUnused 0 (some ()) none
      tripCachedStop tripCachedStop.api_response (by decide)
  · exact (claim_C8_dirty_flag_protocol.2.2.2.2.2.2.2 oracleUnused 0 (some ())
      tripCachedStop (by decide)).1

/-! ## Claim C5 -/

theorem configStep_updated_true (tc : Option TripConfig) (s₀ : TripState)
    (h : s₀.updated = true) : (configStep tc s₀).updated = true := by
  rcases tc with _ | c
  · exact h
  · unfold configStep
    by_cases hc : c.truthy <;> simp [hc, Trip.setConfig, h]

/-- **C5.** For a stale no-stop trip with a bound client, `calculate_trip`
issues exactly one provider call, whose time anchor follows the priority:
`departure_time = departure_date` when set; else
`arrival_time = arrival_date` when the arrival is set and the effective mode
is `"transit"`; else `departure_time = now`.  In the fall-through case
(no departure, arrival set, mode not transit) an ignored-field advisory for
`arrival_date` is among the emitted warnings — reported as a warning, never
as an error. -/
theorem claim_C5_no_stop_anchor_priority (oracle : Oracle) (now : Int)
    (client : ClientSlot) (trip_config : Option TripConfig) (s₀ : TripState)
    (hcl : client = some ()) (hstops : s₀.stops = []) (hup : s₀.updated = true) :
    (Trip.calculate_trip oracle now client trip_config s₀).calls =
      [{ origin := (configStep trip_config s₀).origin.data
         destination := (configStep trip_config s₀).destination.data
         dateArg :=
           match (configStep trip_config s₀).departure_date,
               (configStep trip_config s₀).arrival_date with
           | some d, _ => .departureTime d
           | none, some a =>
             if (configStep trip_config s₀).config.modeOrDefault = "transit" then
               .arrivalTime a
             else .departureTime now
           | none, none => .departureTime now
         config := (configStep trip_config s₀).config }] ∧
    ((configStep trip_config s₀).departure_date = none →
      (configStep trip_config s₀).arrival_date.isSome = true →
      (configStep trip_config s₀).config.modeOrDefault ≠ "transit" →
      Warn.ignoreField "arrival_date" "Only used for transit mode" ∈
        (Trip.calculate_trip oracle now client trip_config s₀).warns) := by
  subst hcl
  set s := configStep trip_config s₀ with hs
  have hst : s.stops = [] := by rw [hs, configStep_stops]; exact hstops
  have hupd : s.updated = true := configStep_updated_true trip_config s₀ hup
  rw [Trip.calculate_trip, ← hs]
  set C := Trip.calcCore oracle now (some ()) s with hC
  rw [Trip.calcCore] at hC
  rw [if_neg (by rw [hupd]; simp)] at hC
  rw [show readClient (some ()) = .ok () from rfl] at hC
  dsimp only at hC
  rw [show clientFalsy () = false from rfl] at hC
  rw [if_neg (by simp)] at hC
  rw [if_neg (by rw [hst]; simp)] at hC
  have hwarn : (s.arrival_date.isSome = true → s.config.modeOrDefault ≠ "transit" →
      Warn.ignoreField "arrival_date" "Only used for transit mode" ∈
        (if s.arrival_date.isSome ∧ s.stops ≠ [] then
          [Warn.ignoreField "arrival_date" "Ignored for trips with stops"]
        else if s.arrival_date.isSome ∧ s.config.modeOrDefault ≠ "transit" then
          [Warn.ignoreField "arrival_date" "Only used for transit mode"]
        else [])) := by
    intro ha hm
    rw [if_neg (by rw [hst]; simp)]
    rw [if_pos ⟨ha, hm⟩]
    exact List.mem_singleton.mpr rfl
  cases hdir : rawDirections oracle
      { origin := s.origin.data, destination := s.destination.data
        dateArg :=
          match s.departure_date with
          | some d => .departureTime d
          | none =>
            match s.arrival_date with
            | some a =>
              if s.config.modeOrDefault = "transit" then .arrivalTime a
              else .departureTime now
            | none => .departureTime now
        config := s.config } with
  | error e =>
    rw [hdir] at hC
    rw [hC]
    refine ⟨?_, fun _ ha hm => hwarn ha hm⟩
    rcases hd : s.departure_date with _ | d
    · rcases har : s.arrival_date with _ | a <;> rfl
    · rfl
  | ok response =>
    rw [hdir] at hC
    dsimp only at hC
    cases hud : Trip.update_dates now
        { s with api_response := .single response, updated := false } with
    | error e'' =>
      rw [hud] at hC
      rw [hC]
      refine ⟨?_, fun _ ha hm => hwarn ha hm⟩
      rcases hd : s.departure_date with _ | d
      · rcases har : s.arrival_date with _ | a <;> rfl
      · rfl
    | ok pair =>
      obtain ⟨s₂, ws⟩ := pair
      rw [hud] at hC
      dsimp only at hC
      rw [hC]
      refine ⟨?_, fun _ ha hm => List.mem_append_left _ (hwarn ha hm)⟩
      rcases hd : s.departure_date with _ | d
      · rcases har : s.arrival_date with _ | a <;> rfl
      · rfl

/-- **C5 witness.** The theorem applied to a concrete stale no-stop trip
with `arrival_date` set and mode `"driving"`: the single call anchors at
`departure_time = now` and the `arrival_date` ignored-field advisory is
emitted. -/
theorem claim_C5_witness :
    (Trip.calculate_trip oracleByDest 77 (some ()) none
        (Trip.init (.str "O") (.str "D") none none (some 99000000)
          (some { mode := some "driving" }))).calls =
      [{ origin := .address "O", destination := .address "D"
         dateArg := .departureTime 77
         config := { mode := some "driving" } }] ∧
    Warn.ignoreField "arrival_date" "Only used for transit mode" ∈
      (Trip.calculate_trip oracleByDest 77 (some ()) none
        (Trip.init (.str "O") (.str "D") none none (some 99000000)
          (some { mode := some "driving" }))).warns := by
  have h := claim_C5_no_stop_anchor_priority oracleByDest 77 (some ()) none
    (Trip.init (.str "O") (.str "D") none none (some 99000000)
      (some { mode := some "driving" }))
    rfl (by decide) (by decide)
  exact ⟨h.1, h.2 (by decide) (by decide) (by decide)⟩

/-! ## Claim C6

Concrete fixture: a fresh no-stop trip departing one second before midnight
(86399 s) whose single leg has one step of 2·10⁹ m in 2 s (rate 10⁹ m/s)
crossing the day boundary, with reconciled arrival 86401 s. -/

/-- A fresh no-stop trip with one step crossing midnight. -/
def tripMidnightStep : TripState :=
  { origin := ⟨.address "O"⟩, destination := ⟨.address "D"⟩
    stops := []
    departure_date := some 86399000000, arrival_date := some 86401000000, config := {}
    api_response := .single
      ⟨some [⟨some 2000000000, some 2, some [⟨some 2000000000, some 2⟩]⟩]⟩
    updated := false }

theorem calWhile_concrete :
    calWhile 0 (1000000000 : ℚ) [0, 0] 86399000000 86399999999 86401000000 =
      .ok ([999999000, 1000000000], 86401000000, 172799999999) := by
  rw [calWhile]
  norm_num [calAdd, dayIdx, dayLast, dayStart, nextMid]
  rw [show ((do
      let cal' ← Except.ok [999999000, 0]
      calWhile 0 (1000000000 : ℚ) cal' 86400000000 172799999999 86401000000) :
        Except PyErr (List ℚ × Int × Int)) =
      calWhile 0 (1000000000 : ℚ) [999999000, 0] 86400000000 172799999999 86401000000
      from rfl]
  rw [calWhile]
  norm_num [calAdd, dayIdx, dayLast, dayStart, nextMid]
  rfl

theorem calStepsLoop_concrete :
    calStepsLoop 0 [0, 0] 86399000000 86399999999 [(2000000000, 2)] =
      .ok ([999999000, 1000000000], 86401000000, 172799999999) := by
  rw [calStepsLoop]
  norm_num
  rw [calWhile_concrete]
  rfl

theorem daysFresh_concrete : Trip.daysFresh tripMidnightStep = .ok 2 := rfl

theorem steps_concrete :
    get_steps tripMidnightStep.api_response.asResp = .ok [(2000000000, 2)] := rfl

theorem dayLast_concrete : dayLast 86399000000 = 86399999999 := rfl

theorem dayIdx_concrete : dayIdx 86399000000 = 0 := rfl

theorem replicate_concrete : List.replicate (Int.toNat 2) (0 : ℚ) = [0, 0] := rfl

theorem except_ok_bind {e a b : Type} (x : a) (f : a → Except e b) :
    (Except.ok x >>= f : Except e b) = f x := rfl

/-- The full concrete calendar of `tripMidnightStep`: 999999 km booked on
day 0 and 1000000 km on day 1. -/
theorem travelCalendarFresh_concrete :
    Trip.travelCalendarFresh tripMidnightStep = .ok [(0, 999999), (1, 1000000)] := by
  unfold Trip.travelCalendarFresh
  rw [daysFresh_concrete]
  rw [except_ok_bind]
  rw [show tripMidnightStep.departure_date = some 86399000000 from rfl]
  dsimp only
  rw [if_neg (by decide : ¬ tripMidnightStep.stops ≠ [])]
  rw [steps_concrete]
  rw [except_ok_bind]
  rw [dayIdx_concrete, replicate_concrete, dayLast_concrete]
  rw [calStepsLoop_concrete]
  rw [except_ok_bind]
  try dsimp only
  rw [show tripMidnightStep.config = {} from rfl]
  norm_num [TripConfig.unitsOrDefault, List.range, List.range.loop]
  rfl

/-- **C6 counterexample.** The claim says the per-date distances of
`travel_calendar` sum to the leg's total step distance within
floating-point tolerance.  Concrete refutation: the trip departs 1 s before
midnight with a single step of 2·10⁹ m over 2 s.  The source charges the
chunk up to `datetime.max.time()` (23:59:59.999999) and then jumps to the
next midnight, silently dropping the microsecond in between, so the
calendar sums to 1 999 999 km while the leg's total step distance is
2 000 000 km — an exact deficit of 1 km (relative error 5·10⁻⁷, orders of
magnitude beyond any floating-point tolerance of double arithmetic; the
coverage part of the claim, two buckets starting at the departure date,
does hold here). -/
theorem claim_C6_counterexample :
    Trip.travel_calendar oracleUnused 0 (some ()) tripMidnightStep =
      (tripMidnightStep, .ok [(0, 999999), (1, 1000000)]) ∧
    (999999 + 1000000 : ℚ) ≠ 2000000000 / 1000 ∧
    ((2000000000 : ℚ) / 1000) - (999999 + 1000000) = 1 := by
  refine ⟨?_, by norm_num, by norm_num⟩
  rw [Trip.travel_calendar, guarded_fresh _ _ _ _ _ (rfl : tripMidnightStep.updated = false)]
  rw [travelCalendarFresh_concrete]

/-! ### C6: the general apportionment analysis -/

theorem sum_set_getD (l : List ℚ) (n : Nat) (x : ℚ) (h : n < l.length) :
    (l.set n (l.getD n 0 + x)).sum = l.sum + x := by
  induction l generalizing n with
  | nil => simp at h
  | cons a as ih =>
    cases n with
    | zero => simp [List.getD_cons_zero]; ring
    | succ m =>
      simp only [List.set_cons_succ, List.getD_cons_succ, List.sum_cons]
      rw [ih m (by simpa using h)]
      ring

theorem calAdd_spec (cal : List ℚ) (depDay t : Int) (x : ℚ)
    (h1 : depDay ≤ dayIdx t) (h2 : dayIdx t - depDay < (cal.length : Int)) :
    ∃ cal', calAdd cal depDay t x = .ok cal' ∧ cal'.length = cal.length ∧
      cal'.sum = cal.sum + x := by
  unfold calAdd
  have h0 : 0 ≤ dayIdx t - depDay := by omega
  have hn : (dayIdx t - depDay).toNat < cal.length := by omega
  rw [if_pos ⟨h0, hn⟩]
  exact ⟨_, rfl, by simp, sum_set_getD _ _ _ hn⟩

theorem dayLast_congr {t u : Int} (h : dayIdx t = dayIdx u) : dayLast t = dayLast u := by
  simp [dayLast, dayStart, h]

/-- One-step conservation for the inner while loop: starting at `current`
with `max_day = dayLast current` and in-range buckets, the loop finishes the
chunk `[current, nd)` charging
`((nd − current) − (dayIdx nd − dayIdx current)) µs` of travel at `rate`:
one microsecond of travel is dropped at every crossed day boundary. -/
theorem calWhile_spec (depDay : Int) (rate : ℚ) :
    ∀ (fuel : Nat) (cal : List ℚ) (current nd : Int),
      (nd - current).toNat = fuel →
      current ≤ nd →
      depDay ≤ dayIdx current →
      dayIdx (nd - 1) - depDay < (cal.length : Int) →
      ∃ cal', calWhile depDay rate cal current (dayLast current) nd =
          .ok (cal', nd, dayLast nd) ∧
        cal'.length = cal.length ∧
        cal'.sum = cal.sum +
          (((nd - current : Int) : ℚ) - ((dayIdx nd - dayIdx current : Int) : ℚ))
            / 1000000 * rate := by
  intro fuel
  induction fuel using Nat.strong_induction_on with
  | _ fuel ih =>
    intro cal current nd hfuel hle hlo hhi
    rw [calWhile]
    by_cases h1 : current < nd
    · rw [if_pos h1]
      by_cases h2 : nd ≤ dayLast current
      · rw [if_pos h2]
        have hIdx : dayIdx nd = dayIdx current :=
          dayIdx_of_between (le_trans (dayStart_le current) hle) h2
        have hmono : dayIdx current ≤ dayIdx (nd - 1) := dayIdx_mono (by omega)
        obtain ⟨cal', hadd, hlen, hsum⟩ := calAdd_spec cal depDay current
          (((nd - current : Int) : ℚ) / 1000000 * rate) hlo (by omega)
        rw [hadd, except_ok_bind]
        refine ⟨cal', by rw [dayLast_congr hIdx], hlen, ?_⟩
        rw [hsum, hIdx]
        push_cast
        ring
      · rw [if_neg h2]
        have hlastlt : dayLast current < nd := by omega
        have hnm : nextMid current = dayLast current + 1 := by
          simp only [nextMid, dayLast]
          omega
        have h3 : nextMid current ≤ nd := by omega
        have hcurlt : current < nextMid current := lt_nextMid current
        have hmono : dayIdx current ≤ dayIdx (nd - 1) := dayIdx_mono (by omega)
        obtain ⟨cal', hadd, hlen, hsum⟩ := calAdd_spec cal depDay current
          (((dayLast current - current : Int) : ℚ) / 1000000 * rate) hlo (by omega)
        rw [hadd, except_ok_bind]
        have hfuel2 : (nd - nextMid current).toNat < fuel := by omega
        obtain ⟨cal'', hrec, hlen'', hsum''⟩ := ih _ hfuel2 cal' (nextMid current) nd rfl
          h3 (by rw [dayIdx_nextMid]; omega) (by rw [hlen]; exact hhi)
        rw [show dayLast (nextMid current) = dayLast (nextMid current) from rfl] at hrec
        refine ⟨cal'', hrec, by rw [hlen'', hlen], ?_⟩
        rw [hsum'', hsum]
        have hq1 : ((nextMid current : Int) : ℚ) = ((dayLast current : Int) : ℚ) + 1 := by
          exact_mod_cast congrArg (fun z : Int => (z : ℚ)) hnm
        have hq2 : ((dayIdx (nextMid current) : Int) : ℚ) =
            ((dayIdx current : Int) : ℚ) + 1 := by
          exact_mod_cast congrArg (fun z : Int => (z : ℚ)) (dayIdx_nextMid current)
        push_cast at hq1 hq2 ⊢
        rw [hq2, hq1]
        ring
    · rw [if_neg h1]
      have hEq : current = nd := le_antisymm hle (not_lt.mp h1)
      subst hEq
      refine ⟨cal, rfl, rfl, ?_⟩
      push_cast
      ring

/-- The meters dropped by the calendar loop: for each step, one microsecond
of travel at its rate per day boundary the step crosses. -/
def stepsLoss (current : Int) : List (Int × Int) → ℚ
  | [] => 0
  | p :: rest =>
    ((dayIdx (current + p.2 * 1000000) - dayIdx current : Int) : ℚ)
        * ((p.1 : ℚ) / (p.2 : ℚ)) / 1000000
      + stepsLoss (current + p.2 * 1000000) rest

theorem restSum_nonneg (rest : List (Int × Int)) (hpos : ∀ p ∈ rest, 0 < p.2) :
    0 ≤ (rest.map Prod.snd).sum := by
  induction rest with
  | nil => simp
  | cons p ps ih =>
    simp only [List.map_cons, List.sum_cons]
    have h1 := hpos p (List.mem_cons_self p ps)
    have h2 := ih (fun q hq => hpos q (List.mem_cons_of_mem p hq))
    omega

/-- Conservation for the step loop: the final bucket list sums to the
initial sum plus the steps' total distance minus `stepsLoss`. -/
theorem calStepsLoop_spec :
    ∀ (steps : List (Int × Int)) (depDay : Int) (cal : List ℚ) (current : Int),
      (∀ p ∈ steps, 0 < p.2) →
      depDay ≤ dayIdx current →
      dayIdx (current + (steps.map Prod.snd).sum * 1000000 - 1) - depDay
        < (cal.length : Int) →
      ∃ cal', calStepsLoop depDay cal current (dayLast current) steps =
          .ok (cal', current + (steps.map Prod.snd).sum * 1000000,
            dayLast (current + (steps.map Prod.snd).sum * 1000000)) ∧
        cal'.length = cal.length ∧
        cal'.sum = cal.sum + (((steps.map Prod.fst).sum : Int) : ℚ)
          - stepsLoss current steps := by
  intro steps
  induction steps with
  | nil =>
    intro depDay cal current hpos hlo hhi
    refine ⟨cal, ?_, rfl, by simp [stepsLoss]⟩
    simp [calStepsLoop]
  | cons p rest ih =>
    intro depDay cal current hpos hlo hhi
    obtain ⟨m, sd⟩ := p
    have hsd : 0 < sd := hpos (m, sd) (List.mem_cons_self _ _)
    have hrest : 0 ≤ (rest.map Prod.snd).sum :=
      restSum_nonneg rest (fun q hq => hpos q (List.mem_cons_of_mem _ hq))
    rw [calStepsLoop]
    rw [if_neg (by simp; omega)]
    have htot : current + (((m, sd) :: rest).map Prod.snd).sum * 1000000 =
        (current + sd * 1000000) + (rest.map Prod.snd).sum * 1000000 := by
      simp [List.map_cons, List.sum_cons]
      ring
    obtain ⟨cal', hw, hlen', hsum'⟩ := calWhile_spec depDay ((m : ℚ) / (sd : ℚ))
      ((current + sd * 1000000 - current).toNat) cal current (current + sd * 1000000)
      rfl (by omega) hlo
      (by
        have : dayIdx (current + sd * 1000000 - 1) ≤
            dayIdx (current + (((m, sd) :: rest).map Prod.snd).sum * 1000000 - 1) := by
          apply dayIdx_mono
          simp only [List.map_cons, List.sum_cons]
          omega
        omega)
    dsimp only
    rw [hw]
    rw [except_ok_bind]
    have hlo2 : depDay ≤ dayIdx (current + sd * 1000000) :=
      le_trans hlo (dayIdx_mono (by omega))
    obtain ⟨cal'', hrec, hlen'', hsum''⟩ := ih depDay cal' (current + sd * 1000000)
      (fun q hq => hpos q (List.mem_cons_of_mem _ hq)) hlo2
      (by rw [hlen']; rw [htot] at hhi; exact hhi)
    refine ⟨cal'', ?_, by rw [hlen'', hlen'], ?_⟩
    · rw [hrec, htot]
    · rw [hsum'', hsum', stepsLoss]
      simp only [List.map_cons, List.sum_cons]
      have hsd0 : ((sd : Int) : ℚ) ≠ 0 := by
        exact_mod_cast (by omega : (sd : Int) ≠ 0)
      push_cast
      field_simp
      ring

/-- Within one calendar day nothing is dropped: if the whole travelled span
stays in the departure day, `stepsLoss` is zero. -/
theorem stepsLoss_eq_zero :
    ∀ (steps : List (Int × Int)) (cur : Int),
      (∀ p ∈ steps, 0 < p.2) →
      dayIdx (cur + (steps.map Prod.snd).sum * 1000000) = dayIdx cur →
      stepsLoss cur steps = 0 := by
  intro steps
  induction steps with
  | nil => intro cur _ _; rfl
  | cons p rest ih =>
    intro cur hpos hsame
    obtain ⟨m, sd⟩ := p
    have hsd : 0 < sd := hpos (m, sd) (List.mem_cons_self _ _)
    have hrest : 0 ≤ (rest.map Prod.snd).sum :=
      restSum_nonneg rest (fun q hq => hpos q (List.mem_cons_of_mem _ hq))
    have hfin : cur + (((m, sd) :: rest).map Prod.snd).sum * 1000000 =
        (cur + sd * 1000000) + (rest.map Prod.snd).sum * 1000000 := by
      simp [List.map_cons, List.sum_cons]
      ring
    have h1 : dayIdx cur ≤ dayIdx (cur + sd * 1000000) := dayIdx_mono (by omega)
    have h2 : dayIdx (cur + sd * 1000000) ≤
        dayIdx (cur + (((m, sd) :: rest).map Prod.snd).sum * 1000000) := by
      apply dayIdx_mono
      rw [hfin]
      omega
    have hmid : dayIdx (cur + sd * 1000000) = dayIdx cur := by omega
    rw [stepsLoss]
    rw [ih (cur + sd * 1000000)
      (fun q hq => hpos q (List.mem_cons_of_mem _ hq))
      (by rw [← hfin, hsame, hmid])]
    simp [hmid]

theorem map_getD_range (l : List ℚ) :
    (List.range l.length).map (fun i => l.getD i 0) = l := by
  apply List.ext_getElem
  · simp
  · intro i h1 h2
    simp only [List.getElem_map, List.getElem_range]
    exact List.getD_eq_getElem l 0 h2

theorem sum_map_div (l : List ℚ) (c : ℚ) :
    (l.map (fun x => x / c)).sum = l.sum / c := by
  induction l with
  | nil => simp
  | cons a as ih => simp [ih, add_div]

/-- **C6 (amended).** For a fresh no-stop trip with both dates set and
reconciled (`arrival = departure + total step duration`), whose cached leg
yields steps with positive durations, and metric units: `travel_calendar`
succeeds; it covers exactly `trip_days` consecutive dates starting at the
departure date; and the per-date distances sum to the leg's total step
distance *minus* `stepsLoss` — one microsecond of travel at the step's rate
per day boundary crossed (converted to kilometers).  The sum equals the
total exactly when the whole trip stays within the departure day; when a
step crosses midnight the code drops the microsecond between
23:59:59.999999 and 00:00:00, so conservation fails by an amount far above
floating-point tolerance (see the counterexample: 1 km on a 2·10⁶ km leg). -/
theorem claim_C6_calendar_coverage_and_conservation (oracle : Oracle) (now : Int)
    (client : ClientSlot) (s : TripState) (dep arr : Int)
    (steps : List (Int × Int))
    (hup : s.updated = false) (hst : s.stops = [])
    (hdep : s.departure_date = some dep) (harr : s.arrival_date = some arr)
    (hsteps : get_steps s.api_response.asResp = .ok steps)
    (hpos : ∀ p ∈ steps, 0 < p.2)
    (hrecon : arr = dep + (steps.map Prod.snd).sum * 1000000)
    (hunits : s.config.unitsOrDefault = "metric") :
    ∃ l, Trip.travel_calendar oracle now client s = (s, .ok l) ∧
      l.map Prod.fst = (List.range (dayIdx arr - dayIdx dep + 1).toNat).map
        (fun (i : Nat) => dayIdx dep + (i : Int)) ∧
      (l.map Prod.snd).sum =
        ((((steps.map Prod.fst).sum : Int) : ℚ) - stepsLoss dep steps) / 1000 ∧
      (dayIdx arr = dayIdx dep → stepsLoss dep steps = 0) := by
  have hsumnn : 0 ≤ (steps.map Prod.snd).sum := restSum_nonneg steps hpos
  have hd1 : dayIdx dep ≤ dayIdx arr := by
    rw [hrecon]
    exact dayIdx_mono (by omega)
  have hdayspos : 0 < dayIdx arr - dayIdx dep + 1 := by omega
  have htn : ((dayIdx arr - dayIdx dep + 1).toNat : Int) = dayIdx arr - dayIdx dep + 1 := by
    omega
  have hlen0 : (List.replicate (dayIdx arr - dayIdx dep + 1).toNat (0 : ℚ)).length =
      (dayIdx arr - dayIdx dep + 1).toNat := by simp
  obtain ⟨cal', hloop, hlen', hsum'⟩ := calStepsLoop_spec steps (dayIdx dep)
    (List.replicate (dayIdx arr - dayIdx dep + 1).toNat 0) dep hpos (le_refl _)
    (by
      have hm : dayIdx (dep + (steps.map Prod.snd).sum * 1000000 - 1) ≤ dayIdx arr := by
        rw [hrecon]
        exact dayIdx_mono (by omega)
      rw [hlen0]
      omega)
  refine ⟨(List.range (dayIdx arr - dayIdx dep + 1).toNat).map
    (fun (i : Nat) => (dayIdx dep + (i : Int), cal'.getD i 0 / 1000)), ?_, ?_, ?_, ?_⟩
  · rw [Trip.travel_calendar, guarded_fresh _ _ _ _ _ hup]
    have hdf : Trip.daysFresh s = .ok (dayIdx arr - dayIdx dep + 1) := by
      unfold Trip.daysFresh
      rw [harr, hdep]
    rw [Prod.mk.injEq]
    refine ⟨rfl, ?_⟩
    unfold Trip.travelCalendarFresh
    rw [hdf, except_ok_bind]
    rw [hdep]
    dsimp only
    rw [if_neg (by rw [hst]; simp)]
    rw [hsteps, except_ok_bind]
    rw [hloop, except_ok_bind]
    dsimp only
    simp only [hunits]
    norm_num
    rfl
  · simp [List.map_map, Function.comp]
  · have hstep1 : (List.map Prod.snd
        ((List.range (dayIdx arr - dayIdx dep + 1).toNat).map
          (fun (i : Nat) => ((dayIdx dep + (i : Int), cal'.getD i 0 / 1000) : Int × ℚ)))) =
        (List.range (dayIdx arr - dayIdx dep + 1).toNat).map
          (fun (i : Nat) => cal'.getD i 0 / 1000) := by
      rw [List.map_map]
      rfl
    rw [hstep1]
    have hstep2 : (List.range (dayIdx arr - dayIdx dep + 1).toNat).map
        (fun (i : Nat) => cal'.getD i 0 / 1000) =
        ((List.range (dayIdx arr - dayIdx dep + 1).toNat).map
          (fun (i : Nat) => cal'.getD i 0)).map (fun q : ℚ => q / 1000) := by
      rw [List.map_map]
      rfl
    rw [hstep2]
    have hcl : (dayIdx arr - dayIdx dep + 1).toNat = cal'.length := by
      rw [hlen', hlen0]
    rw [hcl, map_getD_range, sum_map_div, hsum']
    simp
  · intro hsame
    refine stepsLoss_eq_zero steps dep hpos ?_
    rw [← hrecon]
    exact hsame

/-- **C6 witness.** The amended theorem applied to the concrete
midnight-crossing trip. -/
theorem claim_C6_witness :
    ∃ l, Trip.travel_calendar oracleUnused 0 (some ()) tripMidnightStep =
        (tripMidnightStep, .ok l) ∧
      l.map Prod.fst = (List.range (dayIdx 86401000000 - dayIdx 86399000000 + 1).toNat).map
        (fun (i : Nat) => dayIdx 86399000000 + (i : Int)) ∧
      (l.map Prod.snd).sum =
        ((((([(2000000000, 2)] : List (Int × Int)).map Prod.fst).sum : Int) : ℚ)
          - stepsLoss 86399000000 [(2000000000, 2)]) / 1000 ∧
      (dayIdx 86401000000 = dayIdx 86399000000 →
        stepsLoss 86399000000 [(2000000000, 2)] = 0) :=
  claim_C6_calendar_coverage_and_conservation oracleUnused 0 (some ())
    tripMidnightStep 86399000000 86401000000 [(2000000000, 2)]
    rfl rfl rfl rfl rfl (by decide) (by decide) rfl

end PyTravel
